import Mathlib

/-! Dispatch planner of the gateway (`pkg/proxy/dispatcher.go`).

A shallow embedding of the dispatcher: the per-node dispatch descriptor
(`dispathNode`), the routing state (`dispatcher`) and the functions `dispatch`,
`selectServer`, `adjustByRouting`, `selectServerFromCluster`, `getResponseBody`,
`maybeDone`, `hasError`, `reset`, the retry predicates and `copyReq.prepare`.

Conventions of the embedding:

* a Go pointer is an `Option` (`none` is `nil`), except the pointers to the two
  objects that several descriptors share and mutate (the wait group and the
  aggregation context), which are addresses into an explicit `Heap`;
* `[]byte` and `string` are `String`; a `nil` slice is the empty string;
* `uint64` identifiers are `Nat` (no arithmetic is done on them), the index
  `idx` of a node is `Nat`, status codes (`int`, `int32`) are `Int`;
* a Go map is a function into `Option`, except `routings`, whose iteration
  order matters: it is the list of its values in the order `range` visits
  them, and the parameters of an expression context, a list of pairs;
* a nil-pointer dereference makes the function return `none`;
* methods whose bodies are outside `dispatcher.go` (`route.Find`,
  `apiRuntime.matches`, `routingRuntime.matches`, the load balancer behind
  `clusterRuntime.selectServer`) are fields of the object they belong to;
  the expression evaluator `expr.Exec` and the URI parser of `fasthttp` are
  parameters of the functions that call them.
-/

namespace Proxy

/-- The part of `fasthttp.Request` the dispatcher reads or writes. -/
structure Request where
  path : String
  requestURI : String
  host : String
  deriving DecidableEq, Repr

/-- The part of `fasthttp.Response` the descriptor reads. -/
structure Response where
  body : String
  contentType : String
  deriving DecidableEq, Repr

/-- The `metapb.Server` fields in use. -/
structure Server where
  ID : Nat
  Addr : String
  deriving DecidableEq, Repr

/-- A `serverRuntime`: the registry entry of one backend server. -/
structure serverRuntime where
  meta : Server
  deriving DecidableEq, Repr

/-- The `metapb.HTTPResult` default payload of a node (body only; headers and
cookies are not read by the functions embedded here). -/
structure HTTPResult where
  Body : String
  deriving DecidableEq, Repr

/-- The `metapb.RetryStrategy` of a node. -/
structure RetryStrategy where
  Codes : List Int
  deriving DecidableEq, Repr

/-- The `metapb.DispatchNode` fields in use. -/
structure DispatchNode where
  ClusterID : Nat
  URLRewrite : String
  AttrName : String
  RetryStrategy : Option RetryStrategy
  DefaultValue : Option HTTPResult
  UseDefault : Bool
  deriving DecidableEq, Repr

/-- An `apiNode`: one backend call of an API. -/
structure apiNode where
  meta : DispatchNode
  deriving DecidableEq, Repr

/-- The `metapb.API` fields in use. -/
structure API where
  ID : Nat
  Name : String
  UseDefault : Bool
  deriving DecidableEq, Repr

/-- An `apiRuntime`. The body of its method `matches` (the secondary predicate
on the request) is outside `dispatcher.go`; it is the field `matches_`. -/
structure apiRuntime where
  meta : API
  nodes : List apiNode
  matches_ : Request → Bool

/-- The `metapb.RoutingStrategy` enumeration. -/
inductive RoutingStrategy where
  | Copy
  | Split
  deriving DecidableEq, Repr

/-- The `metapb.Status` enumeration. -/
inductive Status where
  | Down
  | Up
  deriving DecidableEq, Repr

/-- The `metapb.Routing` fields in use. -/
structure Routing where
  ID : Nat
  Name : String
  ClusterID : Nat
  Strategy : RoutingStrategy
  Status : Status
  deriving DecidableEq, Repr

/-- A `routingRuntime`. The body of its method `matches` (target API and match
expression against the request) is outside `dispatcher.go`; it is the field
`matches_`, called with the API id, the request and the request tag. -/
structure routingRuntime where
  meta : Routing
  matches_ : Nat → Request → String → Bool

/-- Modelled from the spec: `routingRuntime.isUp` is not in `dispatcher.go`; a
rule is enabled when its status is `Up`. -/
def routingRuntime.isUp (routing : routingRuntime) : Bool :=
  decide (routing.meta.Status = Status.Up)

/-- A `clusterRuntime`. The load balancer behind `selectServer` is outside
`dispatcher.go` and may keep state between calls (round robin): `lbSelect`
takes the balancer state and the request and gives the chosen server id and
the next balancer state. -/
structure clusterRuntime where
  lbState : Nat
  lbSelect : Nat → Request → Nat × Nat

/-- The call `cluster.selectServer(req)`: the chosen server id, and the cluster
with its balancer advanced. -/
def clusterRuntime.selectServer (cluster : clusterRuntime) (req : Request) :
    Nat × clusterRuntime :=
  ((cluster.lbSelect cluster.lbState req).1,
    { cluster with lbState := (cluster.lbSelect cluster.lbState req).2 })

/-- The `expr.Ctx` expression context: the request it was built for and the
parameters the route matcher extracted. -/
structure exprCtx where
  Origin : Option Request
  Params : List (String × String)
  deriving DecidableEq, Repr

/-- Modelled from the spec: `acquireExprCtx` is not in `dispatcher.go`; a pooled
context is handed out in its known-empty state. -/
def acquireExprCtx : exprCtx :=
  { Origin := none, Params := [] }

/-- Modelled from the spec: `expr.Ctx.AddParam` is not in `dispatcher.go`; it
is the accumulator invoked once per extracted parameter. -/
def exprCtx.AddParam (ctx : exprCtx) (name value : String) : exprCtx :=
  { ctx with Params := ctx.Params ++ [(name, value)] }

/-- The `route.Route` matcher. `Find` is outside `dispatcher.go`: for a path it
gives the API id, whether one was found, and the parameters it hands to the
callback, in the order of the calls. -/
structure Route where
  Find : String → Nat × Bool × List (String × String)

/-- The per-node, per-request dispatch descriptor. The fields `rd` and `ctx`
point to objects the embedded functions never read; `multiCtx` and `wg` are
addresses into the `Heap`. -/
structure dispathNode where
  rd : Option Nat
  ctx : Option Nat
  multiCtx : Option Nat
  exprCtx : Option exprCtx
  wg : Option Nat
  requestTag : String
  idx : Nat
  api : Option apiRuntime
  node : Option apiNode
  dest : Option serverRuntime
  copyTo : Option serverRuntime
  res : Option Response
  cachedBody : String
  cachedCT : String
  err : Option String
  code : Int

/-- Modelled from the spec: the variable `emptyDispathNode` is not in
`dispatcher.go`; it is the known-empty descriptor, the zero value
`dispathNode{}`. -/
def emptyDispathNode : dispathNode :=
  { rd := none, ctx := none, multiCtx := none, exprCtx := none, wg := none,
    requestTag := "", idx := 0, api := none, node := none, dest := none,
    copyTo := none, res := none, cachedBody := "", cachedCT := "",
    err := none, code := 0 }

/-- Modelled from the spec: `acquireDispathNode` is not in `dispatcher.go`; a
pooled descriptor is handed out in its known-empty state. -/
def acquireDispathNode : dispathNode :=
  emptyDispathNode

/-- The constant `fasthttp.StatusBadRequest`. -/
def StatusBadRequest : Int := 400

/-- Source: `dispathNode.hasError`. -/
def dispathNode.hasError (dn : dispathNode) : Bool :=
  dn.err.isSome || decide (dn.code ≥ StatusBadRequest)

/-- Source: `dispathNode.hasDefaultValue`; reads `dn.node.meta`. -/
def dispathNode.hasDefaultValue (dn : dispathNode) : Option Bool :=
  match dn.node with
  | none => none
  | some node => some node.meta.DefaultValue.isSome

/-- Source: `dispathNode.getResponseBody`. It is `none` when the Go code
dereferences a nil pointer: a descriptor without node, or the default branch
taken on a node without default value. A Go `return nil` is the empty body. -/
def dispathNode.getResponseBody (dn : dispathNode) : Option String :=
  if dn.cachedBody.length > 0 then some dn.cachedBody
  else
    match dn.node with
    | none => none
    | some node =>
      if node.meta.UseDefault || (dn.hasError && dn.hasDefaultValue == some true) then
        match node.meta.DefaultValue with
        | none => none
        | some dv => some dv.Body
      else
        match dn.res with
        | some res => some res.body
        | none => some ""

/-- The aggregation context of a multi-node API: the mapping from attribute
name to response body, as the list of its entries. -/
structure multiContext where
  data : List (String × String)
  deriving DecidableEq, Repr

/-- The body stored under an attribute name, if any. -/
def multiContext.get (c : multiContext) (attr : String) : Option String :=
  (c.data.find? (fun e => e.1 == attr)).map Prod.snd

/-- Store `value` under `attr` in a list of entries: replace the entry of that
name when there is one, add an entry otherwise. -/
def setEntry (attr value : String) : List (String × String) → List (String × String)
  | [] => [(attr, value)]
  | e :: rest => if e.1 = attr then (attr, value) :: rest else e :: setEntry attr value rest

/-- Modelled from the spec: `multiContext.completePart` is not in
`dispatcher.go`; it writes the body into the mapping under the attribute
name. -/
def multiContext.completePart (c : multiContext) (attr : String) (data : String) :
    multiContext :=
  { data := setEntry attr data c.data }

/-- The shared objects descriptors point to: aggregation contexts, and the
counters of the `sync.WaitGroup`s, by address. -/
structure Heap where
  multiCtxs : Nat → Option multiContext
  wgs : Nat → Option Int

/-- The standard `sync.WaitGroup.Done`: the counter goes down by one; a counter
that would become negative is a panic. -/
def wgDone (counter : Int) : Option Int :=
  if counter - 1 < 0 then none else some (counter - 1)

/-- Source: `dispathNode.maybeDone`, on the heap of shared objects. It is
`none` when the Go code panics. -/
def dispathNode.maybeDone (dn : dispathNode) (h : Heap) : Option Heap :=
  match dn.wg with
  | none => some h
  | some w =>
    match dn.multiCtx, dn.node with
    | some m, some node =>
      match dn.getResponseBody, h.multiCtxs m with
      | some body, some mc =>
        let h1 : Heap :=
          { h with multiCtxs := fun a =>
              if a = m then some (mc.completePart node.meta.AttrName body)
              else h.multiCtxs a }
        match h1.wgs w with
        | none => none
        | some counter =>
          match wgDone counter with
          | none => none
          | some counter1 =>
            some { h1 with wgs := fun a => if a = w then some counter1 else h1.wgs a }
      | _, _ => none
    | _, _ => none

/-- The descriptors of a request complete one after the other, in the order of
the list: `maybeDone` runs for each in turn. -/
def completeAll : List dispathNode → Heap → Option Heap
  | [], h => some h
  | dn :: rest, h =>
    match dn.maybeDone h with
    | none => none
    | some h1 => completeAll rest h1

/-- The attribute name of the node of a descriptor, the key of the descriptor
in the aggregation context (empty for a descriptor without node). -/
def dispathNode.attrName (dn : dispathNode) : String :=
  match dn.node with
  | some node => node.meta.AttrName
  | none => ""

/-- The routing state. `readers` is the number of holders of the read lock of
the embedded `sync.RWMutex`; `routings` lists the values of the map in the
order the `range` of `adjustByRouting` visits them. -/
structure dispatcher where
  readers : Nat
  routings : List routingRuntime
  route : Route
  apis : Nat → Option apiRuntime
  clusters : Nat → Option clusterRuntime
  servers : Nat → Option serverRuntime

/-- The standard `sync.RWMutex.RLock`: one more reader. -/
def dispatcher.RLock (r : dispatcher) : dispatcher :=
  { r with readers := r.readers + 1 }

/-- The standard `sync.RWMutex.RUnlock`: one reader fewer; unlocking a mutex
that no reader holds is a fatal error. -/
def dispatcher.RUnlock (r : dispatcher) : Option dispatcher :=
  if r.readers = 0 then none else some { r with readers := r.readers - 1 }

/-- Source: `dispatcher.dispatchCompleted`. -/
def dispatcher.dispatchCompleted (r : dispatcher) : Option dispatcher :=
  r.RUnlock

/-- Source: `dispatcher.selectServerFromCluster`. The result carries the
dispatcher with the balancer of the cluster advanced. -/
def dispatcher.selectServerFromCluster (r : dispatcher) (req : Request) (id : Nat) :
    Option serverRuntime × dispatcher :=
  match r.clusters id with
  | none => (none, r)
  | some cluster =>
    (r.servers (cluster.selectServer req).1,
      { r with clusters := fun k =>
          if k = id then some (cluster.selectServer req).2 else r.clusters k })

/-- The `range` loop of `adjustByRouting` over the rules still to visit: the
first rule that is up and matches is applied and the loop is left. -/
def dispatcher.adjustLoop (r : dispatcher) (apiID : Nat) (req : Request)
    (requestTag : String) : List routingRuntime → dispathNode → dispathNode × dispatcher
  | [], dn => (dn, r)
  | routing :: rest, dn =>
    if routing.isUp && routing.matches_ apiID req requestTag then
      match routing.meta.Strategy with
      | RoutingStrategy.Split =>
        ({ dn with dest := (r.selectServerFromCluster req routing.meta.ClusterID).1 },
          (r.selectServerFromCluster req routing.meta.ClusterID).2)
      | RoutingStrategy.Copy =>
        ({ dn with copyTo := (r.selectServerFromCluster req routing.meta.ClusterID).1 },
          (r.selectServerFromCluster req routing.meta.ClusterID).2)
    else r.adjustLoop apiID req requestTag rest dn

/-- Source: `dispatcher.adjustByRouting`. -/
def dispatcher.adjustByRouting (r : dispatcher) (apiID : Nat) (req : Request)
    (dn : dispathNode) (requestTag : String) : dispathNode × dispatcher :=
  r.adjustLoop apiID req requestTag r.routings dn

/-- Source: `dispatcher.selectServer`. It is `none` on a descriptor without
node or without API (nil dereference). -/
def dispatcher.selectServer (r : dispatcher) (req : Request) (dn : dispathNode)
    (requestTag : String) : Option (dispathNode × dispatcher) :=
  match dn.node with
  | none => none
  | some node =>
    match dn.api with
    | none => none
    | some api =>
      some ((r.selectServerFromCluster req node.meta.ClusterID).2.adjustByRouting
        api.meta.ID req
        { dn with dest := (r.selectServerFromCluster req node.meta.ClusterID).1 }
        requestTag)

/-- The `range` loop of `dispatch` over the nodes still to visit: `idx` is the
index of the next node, `dispathes` the descriptors appended so far. -/
def dispatcher.dispatchLoop (req : Request) (requestTag : String) (targetAPI : apiRuntime)
    (ctx : exprCtx) : dispatcher → Nat → List apiNode → List dispathNode →
    Option (List dispathNode × dispatcher)
  | r, _, [], dispathes => some (dispathes, r)
  | r, idx, node :: rest, dispathes =>
    match r.selectServer req
        { acquireDispathNode with
          idx := idx, api := some targetAPI, node := some node, exprCtx := some ctx }
        requestTag with
    | none => none
    | some (dn, r1) =>
      dispatcher.dispatchLoop req requestTag targetAPI ctx r1 (idx + 1) rest (dispathes ++ [dn])

/-- The route lookup of `dispatch`: the outer `none` is the nil dereference of
`api.matches` on an id that is not in `apis`, the inner `none` is a nil
`targetAPI`. -/
def dispatcher.findTargetAPI (r : dispatcher) (req : Request) : Option (Option apiRuntime) :=
  if (r.route.Find req.path).2.1 then
    match r.apis (r.route.Find req.path).1 with
    | none => none
    | some api => if api.matches_ req then some (some api) else some none
  else some none

/-- The expression context `dispatch` builds: acquired, bound to the request,
and fed the parameters of the route lookup. -/
def dispatcher.buildExprCtx (r : dispatcher) (req : Request) : exprCtx :=
  (r.route.Find req.path).2.2.foldl (fun c p => c.AddParam p.1 p.2)
    { acquireExprCtx with Origin := some req }

/-- Source: `dispatcher.dispatch`. The result is the matched API, the
descriptors, the expression context, and the dispatcher after the call (read
lock taken, balancers advanced); `none` is a panic. -/
def dispatcher.dispatch (r : dispatcher) (req : Request) (requestTag : String) :
    Option ((Option apiRuntime × List dispathNode × exprCtx) × dispatcher) :=
  match r.RLock.findTargetAPI req with
  | none => none
  | some none => some ((none, [], r.RLock.buildExprCtx req), r.RLock)
  | some (some targetAPI) =>
    if targetAPI.meta.UseDefault then
      some ((some targetAPI, [], r.RLock.buildExprCtx req), r.RLock)
    else
      match dispatcher.dispatchLoop req requestTag targetAPI (r.RLock.buildExprCtx req)
          r.RLock 0 targetAPI.nodes [] with
      | none => none
      | some (dispathes, r1) => some ((some targetAPI, dispathes, r.RLock.buildExprCtx req), r1)

/-- The rule applied to a descriptor, in the words of the specification: the
first rule, in the order the rules are visited, that is enabled and matches
the API and the request. -/
def firstMatch (routings : List routingRuntime) (apiID : Nat) (req : Request)
    (requestTag : String) : Option routingRuntime :=
  routings.find? (fun routing => routing.isUp && routing.matches_ apiID req requestTag)

/-- Source: `dispathNode.reset`. -/
def dispathNode.reset (_dn : dispathNode) : dispathNode :=
  emptyDispathNode

/-- Source: `dispathNode.retryStrategy`; reads `dn.node.meta`. The outer `none`
is the nil dereference of a descriptor without node, the inner one a node
without retry strategy. -/
def dispathNode.retryStrategy (dn : dispathNode) : Option (Option RetryStrategy) :=
  match dn.node with
  | none => none
  | some node => some node.meta.RetryStrategy

/-- Source: `dispathNode.hasRetryStrategy`. -/
def dispathNode.hasRetryStrategy (dn : dispathNode) : Option Bool :=
  match dn.retryStrategy with
  | none => none
  | some strategy => some strategy.isSome

/-- The `range` loop of `matchRetryStrategy` over the codes still to visit. -/
def matchCodes (target : Int) : List Int → Bool
  | [] => false
  | code :: rest => if code = target then true else matchCodes target rest

/-- Source: `dispathNode.matchRetryStrategy`. It is `none` on a node without
retry strategy (nil dereference). -/
def dispathNode.matchRetryStrategy (dn : dispathNode) (target : Int) : Option Bool :=
  match dn.retryStrategy with
  | some (some strategy) => some (matchCodes target strategy.Codes)
  | _ => none

/-- Source: `dispathNode.matchAllRetryStrategy`. It is `none` on a node without
retry strategy (nil dereference). -/
def dispathNode.matchAllRetryStrategy (dn : dispathNode) : Option Bool :=
  match dn.retryStrategy with
  | some (some strategy) => some (decide (strategy.Codes.length = 0))
  | _ => none

/-- The URI parser of `fasthttp`, which is outside the repository: for the URI
handed to `SetRequestURI`, `Path` is the normalised path that `URI().Path()`
gives and `RequestURI` the re-encoded URI that `RequestURI()` gives once the
URI has been parsed. -/
structure URIParser where
  Path : String → String
  RequestURI : String → String

/-- The `lowercaseBytes` of `fasthttp`: the letters `A` to `Z` in lower case,
every other character as it is. -/
def lowercaseBytes (s : String) : String :=
  String.mk (s.data.map Char.toLower)

/-- The `fasthttp.Request.SetRequestURI`, as the getters of the request show it
once the URI has been parsed, which the `SetHost` that follows it in `prepare`
does: the request URI is the re-encoded form of the URI handed in, and the
path is parsed from it. -/
def Request.SetRequestURI (parser : URIParser) (req : Request) (uri : String) : Request :=
  { req with requestURI := parser.RequestURI uri, path := parser.Path uri }

/-- The `fasthttp.Request.SetHost`: the host of the URI is stored in lower
case. -/
def Request.SetHost (req : Request) (host : String) : Request :=
  { req with host := lowercaseBytes host }

/-- The copy of a request, sent to the copy destination of a descriptor. The
field `to` of the source is `to_` here. -/
structure copyReq where
  origin : Option Request
  api : Option apiRuntime
  node : Option apiNode
  to_ : Option serverRuntime
  params : List (String × String)
  idx : Nat
  requestTag : String

/-- Source: `copyReq.needRewrite`; reads `req.node.meta`. -/
def copyReq.needRewrite (req : copyReq) : Option Bool :=
  match req.node with
  | none => none
  | some node => some (decide (node.meta.URLRewrite ≠ ""))

/-- Source: `copyReq.rewiteURL`. The expression evaluator is outside
`dispatcher.go`: `Exec ctx node` is the string that `expr.Exec` gives for the
parsed expressions of the node in the context `ctx`. -/
def copyReq.rewiteURL (Exec : exprCtx → apiNode → String) (req : copyReq) : Option String :=
  match req.node with
  | none => none
  | some node => some (Exec { Origin := req.origin, Params := req.params } node)

/-- Source: `copyReq.prepare`. The result is the copy with its request
rewritten or not; `none` is a nil dereference. -/
def copyReq.prepare (Exec : exprCtx → apiNode → String) (parser : URIParser)
    (req : copyReq) : Option copyReq :=
  match req.needRewrite with
  | none => none
  | some false => some req
  | some true =>
    match req.rewiteURL Exec with
    | none => none
    | some realPath =>
      if realPath ≠ "" then
        match req.origin, req.to_ with
        | some origin, some dest =>
          some { req with
            origin := some ((origin.SetRequestURI parser realPath).SetHost dest.meta.Addr) }
        | _, _ => none
      else some req

/-- A destination that comes from the server registry of the dispatcher `r`:
nil, or the entry of the servers map under an id that the balancer of one of
the clusters of `r` gives for the request, in some state of that balancer. -/
def fromRegistry (r : dispatcher) (req : Request) (svr : Option serverRuntime) : Prop :=
  svr = none ∨
    ∃ id cluster state, r.clusters id = some cluster ∧
      svr = r.servers (cluster.lbSelect state req).1

/-- The dispatcher `r` is the dispatcher `r0` with balancers advanced: the same
servers, and every cluster of `r` is a cluster of `r0` under the same id with
the same balancer, in whatever state. -/
def sameBalancers (r0 r : dispatcher) : Prop :=
  r.servers = r0.servers ∧
    ∀ id cluster, r.clusters id = some cluster →
      ∃ cluster0, r0.clusters id = some cluster0 ∧ cluster.lbSelect = cluster0.lbSelect

/-! ## A small gateway, used to run the definitions on concrete inputs -/

/-- The request `GET /orders/42`. -/
def sampleReq : Request :=
  { path := "/orders/42", requestURI := "/orders/42", host := "gateway" }

/-- A request no route knows. -/
def otherReq : Request :=
  { path := "/nothing", requestURI := "/nothing", host := "gateway" }

/-- Three backend servers, by id; no other id is registered. -/
def sampleServers : Nat → Option serverRuntime
  | 1 => some { meta := { ID := 1, Addr := "10.0.0.1:80" } }
  | 2 => some { meta := { ID := 2, Addr := "10.0.0.2:80" } }
  | 3 => some { meta := { ID := 3, Addr := "10.0.0.3:80" } }
  | _ => none

/-- Cluster 10 alternates between the servers 1 and 2 (round robin); cluster 20
always picks server 3. -/
def sampleClusters : Nat → Option clusterRuntime
  | 10 => some { lbState := 0, lbSelect := fun s _ => (1 + s % 2, s + 1) }
  | 20 => some { lbState := 0, lbSelect := fun s _ => (3, s) }
  | _ => none

/-- A node of cluster 10 with attribute name `attr`. -/
def sampleNode (attr : String) : apiNode :=
  { meta := { ClusterID := 10, URLRewrite := "", AttrName := attr, RetryStrategy := none,
              DefaultValue := none, UseDefault := false } }

/-- The API of id 7, with two nodes. -/
def sampleAPI : apiRuntime :=
  { meta := { ID := 7, Name := "orders", UseDefault := false },
    nodes := [sampleNode "order", sampleNode "user"],
    matches_ := fun _ => true }

/-- The same API, fenced: it always uses the default values. -/
def fencedAPI : apiRuntime :=
  { sampleAPI with meta := { ID := 7, Name := "orders", UseDefault := true } }

/-- The same API, with a secondary predicate that rejects every request. -/
def pickyAPI : apiRuntime :=
  { sampleAPI with matches_ := fun _ => false }

/-- An API of id 7 whose second node is of cluster 30, which the sample
gateway does not have. -/
def strayAPI : apiRuntime :=
  { meta := { ID := 7, Name := "orders", UseDefault := false },
    nodes := [sampleNode "order",
      { meta := { ClusterID := 30, URLRewrite := "", AttrName := "stock",
                  RetryStrategy := none, DefaultValue := none, UseDefault := false } }],
    matches_ := fun _ => true }

/-- A completed descriptor of a multi-node API: attribute name `attr`,
response body `body`, wait group and aggregation context at address 0. -/
def doneNode (attr body : String) : dispathNode :=
  { emptyDispathNode with
    wg := some 0, multiCtx := some 0, node := some (sampleNode attr),
    res := some { body := body, contentType := "application/json" }, code := 200 }

/-- The heap of a request of `n` nodes before any completes: an empty
aggregation context and a wait group counting `n`, both at address 0. -/
def freshHeap (n : Int) : Heap :=
  { multiCtxs := fun a => if a = 0 then some { data := [] } else none,
    wgs := fun a => if a = 0 then some n else none }

/-- The route table: `/orders/42` is API 7, with path parameter `id`. -/
def sampleRoute : Route :=
  { Find := fun path =>
      if path = "/orders/42" then (7, true, [("id", "42")]) else (0, false, []) }

/-- A rule towards cluster 20 for every request of API 7. -/
def sampleRule (id : Nat) (strategy : RoutingStrategy) (status : Status) : routingRuntime :=
  { meta := { ID := id, Name := "canary", ClusterID := 20, Strategy := strategy,
              Status := status },
    matches_ := fun apiID _ _ => decide (apiID = 7) }

/-- The routing state with the given API under id 7 and the given rules; no
reader holds the lock. -/
def sampleDispatcher (api : apiRuntime) (rules : List routingRuntime) : dispatcher :=
  { readers := 0, routings := rules, route := sampleRoute,
    apis := fun id => if id = 7 then some api else none,
    clusters := sampleClusters, servers := sampleServers }

/-- A copy of the sample request for server 3, on a node with or without
rewrite expression. -/
def sampleCopy (rewrite : String) : copyReq :=
  { origin := some sampleReq, api := some sampleAPI,
    node := some { meta := { ClusterID := 10, URLRewrite := rewrite, AttrName := "order",
                             RetryStrategy := none, DefaultValue := none,
                             UseDefault := false } },
    to_ := sampleServers 3, params := [("id", "42")], idx := 0, requestTag := "t" }

/-- A parser for the samples, whose URIs are plain paths that `fasthttp` neither
normalises nor re-encodes: it leaves the URI as it is. -/
def sampleParser : URIParser :=
  { Path := fun uri => uri, RequestURI := fun uri => uri }

/-- A backend whose address is written with capital letters. -/
def capitalServer : serverRuntime :=
  { meta := { ID := 4, Addr := "Backend.Local:80" } }

/-- A descriptor of a multi-node API whose node has `UseDefault` set and
no default value configured; wait group and aggregation context at address
0. -/
def fencedNode : dispathNode :=
  { emptyDispathNode with
    wg := some 0, multiCtx := some 0,
    node := some { meta := { ClusterID := 10, URLRewrite := "", AttrName := "order",
                             RetryStrategy := none, DefaultValue := none,
                             UseDefault := true } } }

/-- An evaluator for the samples: the rewrite expression itself, followed by
the value of the first parameter. -/
def sampleExec (ctx : exprCtx) (node : apiNode) : String :=
  match ctx.Params with
  | [] => node.meta.URLRewrite
  | p :: _ => node.meta.URLRewrite ++ p.2

/-- A descriptor on a node with the retry codes `codes`. -/
def retryNode (codes : List Int) : dispathNode :=
  { emptyDispathNode with
    node := some { meta := { ClusterID := 10, URLRewrite := "", AttrName := "order",
                             RetryStrategy := some { Codes := codes },
                             DefaultValue := none, UseDefault := false } } }

/-! ## Lemmas on the loops -/

/-- The rule loop leaves `idx`, `node`, `api` and `exprCtx` of the descriptor
as they are. -/
theorem adjustLoop_fields (r : dispatcher) (apiID : Nat) (req : Request) (tag : String)
    (l : List routingRuntime) (dn : dispathNode) :
    (r.adjustLoop apiID req tag l dn).1.idx = dn.idx ∧
    (r.adjustLoop apiID req tag l dn).1.node = dn.node ∧
    (r.adjustLoop apiID req tag l dn).1.api = dn.api ∧
    (r.adjustLoop apiID req tag l dn).1.exprCtx = dn.exprCtx := by
  induction l with
  | nil => exact ⟨rfl, rfl, rfl, rfl⟩
  | cons routing rest ih =>
    unfold dispatcher.adjustLoop
    by_cases hm : (routing.isUp && routing.matches_ apiID req tag) = true
    · rw [if_pos hm]
      cases routing.meta.Strategy <;> exact ⟨rfl, rfl, rfl, rfl⟩
    · rw [if_neg hm]
      exact ih

/-- On a descriptor that has a node and an API, `selectServer` returns, and it
leaves `idx`, `node`, `api` and `exprCtx` as they are. -/
theorem selectServer_fields (r : dispatcher) (req : Request) (tag : String)
    (dn : dispathNode) (node : apiNode) (api : apiRuntime)
    (hn : dn.node = some node) (ha : dn.api = some api) :
    ∃ d r1, r.selectServer req dn tag = some (d, r1) ∧ d.idx = dn.idx ∧
      d.node = dn.node ∧ d.api = dn.api ∧ d.exprCtx = dn.exprCtx := by
  unfold dispatcher.selectServer dispatcher.adjustByRouting
  rw [hn, ha]
  exact ⟨_, _, rfl, adjustLoop_fields _ _ _ _ _ _⟩

/-- The node loop of `dispatch` returns, keeps the descriptors appended so far,
and appends one descriptor per node, in order, with `idx`, `node`, `api` and
`exprCtx` set. -/
theorem dispatchLoop_spec (req : Request) (tag : String) (api : apiRuntime) (ctx : exprCtx)
    (nodes : List apiNode) :
    ∀ (r : dispatcher) (idx : Nat) (acc : List dispathNode),
      ∃ added r1,
        dispatcher.dispatchLoop req tag api ctx r idx nodes acc = some (acc ++ added, r1) ∧
        added.length = nodes.length ∧
        ∀ (i : Nat) (node : apiNode), nodes[i]? = some node →
          ∃ d, added[i]? = some d ∧ d.idx = idx + i ∧ d.node = some node ∧
            d.api = some api ∧ d.exprCtx = some ctx := by
  induction nodes with
  | nil =>
    intro r idx acc
    exact ⟨[], r, by simp [dispatcher.dispatchLoop], rfl, by simp⟩
  | cons node rest ih =>
    intro r idx acc
    obtain ⟨d, r1, hs, hd⟩ := selectServer_fields r req tag
      { acquireDispathNode with
        idx := idx, api := some api, node := some node, exprCtx := some ctx }
      node api rfl rfl
    obtain ⟨added, r2, hl, hlen, hall⟩ := ih r1 (idx + 1) (acc ++ [d])
    refine ⟨d :: added, r2, ?_, by simp [hlen], ?_⟩
    · unfold dispatcher.dispatchLoop
      rw [hs]
      simp only []
      rw [hl]
      simp
    · intro i n hi
      cases i with
      | zero =>
        simp only [List.getElem?_cons_zero, Option.some.injEq] at hi
        subst hi
        exact ⟨d, by simp, hd⟩
      | succ j =>
        simp only [List.getElem?_cons_succ] at hi
        obtain ⟨d1, h1, h2, h3⟩ := hall j n hi
        exact ⟨d1, by simpa using h1, by omega, h3⟩

/-- The server selection changes no part of the dispatcher but the clusters. -/
theorem selectServerFromCluster_frame (r : dispatcher) (req : Request) (id : Nat) :
    (r.selectServerFromCluster req id).2.readers = r.readers ∧
    (r.selectServerFromCluster req id).2.routings = r.routings ∧
    (r.selectServerFromCluster req id).2.servers = r.servers := by
  unfold dispatcher.selectServerFromCluster
  cases r.clusters id <;> exact ⟨rfl, rfl, rfl⟩

/-- The rule loop changes no part of the dispatcher but the clusters. -/
theorem adjustLoop_frame (r : dispatcher) (apiID : Nat) (req : Request) (tag : String)
    (l : List routingRuntime) (dn : dispathNode) :
    (r.adjustLoop apiID req tag l dn).2.readers = r.readers ∧
    (r.adjustLoop apiID req tag l dn).2.routings = r.routings ∧
    (r.adjustLoop apiID req tag l dn).2.servers = r.servers := by
  induction l with
  | nil => exact ⟨rfl, rfl, rfl⟩
  | cons routing rest ih =>
    unfold dispatcher.adjustLoop
    by_cases hm : (routing.isUp && routing.matches_ apiID req tag) = true
    · rw [if_pos hm]
      cases routing.meta.Strategy <;> exact selectServerFromCluster_frame r req _
    · rw [if_neg hm]
      exact ih

/-- What `selectServer` returns leaves the lock, the rules and the servers of
the dispatcher as they are. -/
theorem selectServer_frame (r r1 : dispatcher) (req : Request) (tag : String)
    (dn d : dispathNode) (h : r.selectServer req dn tag = some (d, r1)) :
    r1.readers = r.readers ∧ r1.routings = r.routings ∧ r1.servers = r.servers := by
  unfold dispatcher.selectServer dispatcher.adjustByRouting at h
  cases hn : dn.node with
  | none => rw [hn] at h; exact absurd h (by simp)
  | some node =>
    cases ha : dn.api with
    | none => rw [hn, ha] at h; exact absurd h (by simp)
    | some api =>
      rw [hn, ha] at h
      simp only [Option.some.injEq] at h
      have h2 := congrArg Prod.snd h
      simp only at h2
      subst h2
      obtain ⟨a1, a2, a3⟩ := adjustLoop_frame
        (r.selectServerFromCluster req node.meta.ClusterID).2 api.meta.ID req tag
        (r.selectServerFromCluster req node.meta.ClusterID).2.routings _
      obtain ⟨b1, b2, b3⟩ := selectServerFromCluster_frame r req node.meta.ClusterID
      exact ⟨a1.trans b1, a2.trans b2, a3.trans b3⟩

/-- What the node loop returns leaves the lock of the dispatcher as it is. -/
theorem dispatchLoop_readers (req : Request) (tag : String) (api : apiRuntime) (ctx : exprCtx)
    (nodes : List apiNode) :
    ∀ (r : dispatcher) (idx : Nat) (acc ds : List dispathNode) (r1 : dispatcher),
      dispatcher.dispatchLoop req tag api ctx r idx nodes acc = some (ds, r1) →
      r1.readers = r.readers := by
  induction nodes with
  | nil =>
    intro r idx acc ds r1 h
    simp only [dispatcher.dispatchLoop, Option.some.injEq, Prod.mk.injEq] at h
    rw [h.2]
  | cons node rest ih =>
    intro r idx acc ds r1 h
    unfold dispatcher.dispatchLoop at h
    cases hs : r.selectServer req
        { acquireDispathNode with
          idx := idx, api := some api, node := some node, exprCtx := some ctx } tag with
    | none => rw [hs] at h; exact absurd h (by simp)
    | some p =>
      obtain ⟨d, r2⟩ := p
      rw [hs] at h
      simp only at h
      rw [ih r2 (idx + 1) _ ds r1 h]
      exact (selectServer_frame r r2 req tag _ d hs).1

/-- The route lookup of `dispatch` on a request whose path leads to an API that
accepts it. -/
theorem findTargetAPI_matched (r : dispatcher) (req : Request) (api : apiRuntime)
    (hf : (r.route.Find req.path).2.1 = true)
    (ha : r.apis (r.route.Find req.path).1 = some api)
    (hm : api.matches_ req = true) :
    r.RLock.findTargetAPI req = some (some api) := by
  unfold dispatcher.findTargetAPI dispatcher.RLock
  simp [hf, ha, hm]

/-- Rules that are down or do not match are passed over by the rule loop. -/
theorem adjustLoop_skip (r : dispatcher) (apiID : Nat) (req : Request) (tag : String)
    (dn : dispathNode) (pre l : List routingRuntime)
    (hpre : ∀ x ∈ pre, (x.isUp && x.matches_ apiID req tag) = false) :
    r.adjustLoop apiID req tag (pre ++ l) dn = r.adjustLoop apiID req tag l dn := by
  induction pre with
  | nil => rfl
  | cons x rest ih =>
    have hx : (x.isUp && x.matches_ apiID req tag) = false := hpre x (List.mem_cons_self _ _)
    have hrest : ∀ y ∈ rest, (y.isUp && y.matches_ apiID req tag) = false :=
      fun y hy => hpre y (List.mem_cons_of_mem _ hy)
    rw [List.cons_append, dispatcher.adjustLoop, hx]
    exact ih hrest

/-- A rule that is up and matches ends the rule loop: the rules after it are
not looked at. -/
theorem adjustLoop_hit (r : dispatcher) (apiID : Nat) (req : Request) (tag : String)
    (dn : dispathNode) (rule : routingRuntime) (post : List routingRuntime)
    (hm : (rule.isUp && rule.matches_ apiID req tag) = true) :
    r.adjustLoop apiID req tag (rule :: post) dn = r.adjustLoop apiID req tag [rule] dn := by
  unfold dispatcher.adjustLoop
  rw [if_pos hm, if_pos hm]

/-- The rule loop over rules none of which is up and matches changes
nothing. -/
theorem adjustLoop_none (r : dispatcher) (apiID : Nat) (req : Request) (tag : String)
    (dn : dispathNode) (l : List routingRuntime)
    (hl : ∀ x ∈ l, (x.isUp && x.matches_ apiID req tag) = false) :
    r.adjustLoop apiID req tag l dn = (dn, r) := by
  have h := adjustLoop_skip r apiID req tag dn l [] hl
  rw [List.append_nil] at h
  rw [h]
  rfl

/-- The first match of a list of rules splits the list: the rules before it are
down or do not match, and it is up and matches. -/
theorem firstMatch_some (l : List routingRuntime) (apiID : Nat) (req : Request)
    (tag : String) (rule : routingRuntime) (h : firstMatch l apiID req tag = some rule) :
    ∃ pre post, l = pre ++ rule :: post ∧
      (∀ x ∈ pre, (x.isUp && x.matches_ apiID req tag) = false) ∧
      (rule.isUp && rule.matches_ apiID req tag) = true := by
  induction l with
  | nil => simp [firstMatch] at h
  | cons x rest ih =>
    unfold firstMatch at h
    by_cases hx : (x.isUp && x.matches_ apiID req tag) = true
    · simp only [List.find?_cons, hx, Option.some.injEq] at h
      subst h
      exact ⟨[], rest, rfl, by simp, hx⟩
    · have hx2 : (x.isUp && x.matches_ apiID req tag) = false := by simpa using hx
      simp only [List.find?_cons, hx2] at h
      obtain ⟨pre, post, h1, h2, h3⟩ := ih h
      refine ⟨x :: pre, post, by rw [h1]; rfl, ?_, h3⟩
      intro y hy
      rcases List.mem_cons.mp hy with rfl | hy
      · simpa using hx
      · exact h2 y hy

/-- The rule loop over the rules of the dispatcher, when the first match is
`rule`: the loop over that rule alone. -/
theorem adjustLoop_firstMatch (r : dispatcher) (apiID : Nat) (req : Request) (tag : String)
    (dn : dispathNode) (l : List routingRuntime) (rule : routingRuntime)
    (h : firstMatch l apiID req tag = some rule) :
    r.adjustLoop apiID req tag l dn = r.adjustLoop apiID req tag [rule] dn ∧
      (rule.isUp && rule.matches_ apiID req tag) = true := by
  obtain ⟨pre, post, h1, h2, h3⟩ := firstMatch_some l apiID req tag rule h
  rw [h1, adjustLoop_skip r apiID req tag dn pre _ h2]
  exact ⟨adjustLoop_hit r apiID req tag dn rule post h3, h3⟩

/-- On a descriptor that has a node and an API, `selectServer` is the selection
from the cluster of the node followed by the rule loop over the rules of the
dispatcher. -/
theorem selectServer_eq (r : dispatcher) (req : Request) (dn : dispathNode) (tag : String)
    (node : apiNode) (api : apiRuntime) (hn : dn.node = some node) (ha : dn.api = some api) :
    r.selectServer req dn tag =
      some ((r.selectServerFromCluster req node.meta.ClusterID).2.adjustLoop api.meta.ID req tag
        r.routings { dn with dest := (r.selectServerFromCluster req node.meta.ClusterID).1 }) := by
  have hrt : (r.selectServerFromCluster req node.meta.ClusterID).2.routings = r.routings :=
    (selectServerFromCluster_frame r req node.meta.ClusterID).2.1
  cases dn
  simp only at hn ha
  subst hn ha
  simp only [dispatcher.selectServer, dispatcher.adjustByRouting, hrt]

/-- The rule loop over one rule that is up, matches and splits. -/
theorem adjustLoop_split (r : dispatcher) (apiID : Nat) (req : Request) (tag : String)
    (dn : dispathNode) (rule : routingRuntime)
    (hm : (rule.isUp && rule.matches_ apiID req tag) = true)
    (hs : rule.meta.Strategy = RoutingStrategy.Split) :
    r.adjustLoop apiID req tag [rule] dn =
      ({ dn with dest := (r.selectServerFromCluster req rule.meta.ClusterID).1 },
        (r.selectServerFromCluster req rule.meta.ClusterID).2) := by
  rw [dispatcher.adjustLoop, if_pos hm, hs]

/-- The rule loop over one rule that is up, matches and copies. -/
theorem adjustLoop_copy (r : dispatcher) (apiID : Nat) (req : Request) (tag : String)
    (dn : dispathNode) (rule : routingRuntime)
    (hm : (rule.isUp && rule.matches_ apiID req tag) = true)
    (hs : rule.meta.Strategy = RoutingStrategy.Copy) :
    r.adjustLoop apiID req tag [rule] dn =
      ({ dn with copyTo := (r.selectServerFromCluster req rule.meta.ClusterID).1 },
        (r.selectServerFromCluster req rule.meta.ClusterID).2) := by
  rw [dispatcher.adjustLoop, if_pos hm, hs]

/-- When no rule of the dispatcher is up and matches, `selectServer` is the
selection from the cluster of the node alone. -/
theorem selectServer_no_rule (r : dispatcher) (req : Request) (dn : dispathNode) (tag : String)
    (node : apiNode) (api : apiRuntime) (hn : dn.node = some node) (ha : dn.api = some api)
    (hrules : ∀ x ∈ r.routings, (x.isUp && x.matches_ api.meta.ID req tag) = false) :
    r.selectServer req dn tag =
      some ({ dn with dest := (r.selectServerFromCluster req node.meta.ClusterID).1 },
        (r.selectServerFromCluster req node.meta.ClusterID).2) := by
  rw [selectServer_eq r req dn tag node api hn ha, adjustLoop_none _ _ _ _ _ _ hrules]

/-- Two dispatchers that differ by one cluster `c`, absent from the first: a
selection keeps them so, gives the same server on both for every cluster but
`c`, and gives no server on the first for `c`. -/
theorem selectServerFromCluster_missing (r r2 : dispatcher) (req : Request) (c id : Nat)
    (hc : r.clusters c = none)
    (hk : ∀ k, k ≠ c → r.clusters k = r2.clusters k)
    (hs : r.servers = r2.servers) :
    (r.selectServerFromCluster req id).2.clusters c = none ∧
    (∀ k, k ≠ c → (r.selectServerFromCluster req id).2.clusters k =
      (r2.selectServerFromCluster req id).2.clusters k) ∧
    (id ≠ c → (r.selectServerFromCluster req id).1 = (r2.selectServerFromCluster req id).1) ∧
    (id = c → (r.selectServerFromCluster req id).1 = none) := by
  by_cases hid : id = c
  · subst hid
    have h1 : r.selectServerFromCluster req id = (none, r) := by
      unfold dispatcher.selectServerFromCluster
      rw [hc]
    rw [h1]
    refine ⟨hc, ?_, fun h => absurd rfl h, fun _ => rfl⟩
    intro k hkc
    unfold dispatcher.selectServerFromCluster
    cases r2.clusters id with
    | none => exact hk k hkc
    | some cl =>
      simp only [if_neg hkc]
      exact hk k hkc
  · have he := hk id hid
    unfold dispatcher.selectServerFromCluster
    rw [← he, ← hs]
    cases hcl : r.clusters id with
    | none => exact ⟨hc, hk, fun _ => rfl, fun h => absurd h hid⟩
    | some cl =>
      refine ⟨?_, ?_, fun _ => rfl, fun h => absurd h hid⟩
      · show (if c = id then _ else r.clusters c) = none
        rw [if_neg (Ne.symm hid)]
        exact hc
      · intro k hkc
        show (if k = id then _ else r.clusters k) = (if k = id then _ else r2.clusters k)
        by_cases hki : k = id
        · rw [if_pos hki, if_pos hki]
        · rw [if_neg hki, if_neg hki]
          exact hk k hkc

/-- The node loop of `dispatch` on two dispatchers that differ by one cluster
`c`, absent from the first, when no rule is up and matches: both loops return,
with one descriptor per node; the two descriptors of a node of another cluster
are equal, and the descriptor of a node of cluster `c` on the first dispatcher
is the one on the second with no destination. -/
theorem dispatchLoop_missing (req : Request) (tag : String) (api : apiRuntime) (ctx : exprCtx)
    (c : Nat) (nodes : List apiNode) :
    ∀ (r r2 : dispatcher) (idx : Nat) (acc acc2 : List dispathNode),
      r.clusters c = none →
      (∀ k, k ≠ c → r.clusters k = r2.clusters k) →
      r.servers = r2.servers →
      (∀ x ∈ r.routings, (x.isUp && x.matches_ api.meta.ID req tag) = false) →
      (∀ x ∈ r2.routings, (x.isUp && x.matches_ api.meta.ID req tag) = false) →
      ∃ added added2 r1 r3,
        dispatcher.dispatchLoop req tag api ctx r idx nodes acc = some (acc ++ added, r1) ∧
        dispatcher.dispatchLoop req tag api ctx r2 idx nodes acc2 = some (acc2 ++ added2, r3) ∧
        added.length = nodes.length ∧ added2.length = nodes.length ∧
        ∀ (i : Nat) (node : apiNode), nodes[i]? = some node →
          ∃ d d2, added[i]? = some d ∧ added2[i]? = some d2 ∧
            d.node = some node ∧ d.idx = idx + i ∧
            (node.meta.ClusterID = c → d.dest = none ∧ d = { d2 with dest := none }) ∧
            (node.meta.ClusterID ≠ c → d = d2) := by
  induction nodes with
  | nil =>
    intro r r2 idx acc acc2 _ _ _ _ _
    exact ⟨[], [], r, r2, by simp [dispatcher.dispatchLoop], by simp [dispatcher.dispatchLoop],
      rfl, rfl, by simp⟩
  | cons node rest ih =>
    intro r r2 idx acc acc2 hc hk hs hr hr2
    have e1 := selectServer_no_rule r req
      { acquireDispathNode with
        idx := idx, api := some api, node := some node, exprCtx := some ctx }
      tag node api rfl rfl hr
    have e2 := selectServer_no_rule r2 req
      { acquireDispathNode with
        idx := idx, api := some api, node := some node, exprCtx := some ctx }
      tag node api rfl rfl hr2
    obtain ⟨m1, m2, m3, m4⟩ :=
      selectServerFromCluster_missing r r2 req c node.meta.ClusterID hc hk hs
    obtain ⟨_, f1, f2⟩ := selectServerFromCluster_frame r req node.meta.ClusterID
    obtain ⟨_, g1, g2⟩ := selectServerFromCluster_frame r2 req node.meta.ClusterID
    obtain ⟨added, added2, r1, r3, hl, hl2, hlen, hlen2, hall⟩ :=
      ih (r.selectServerFromCluster req node.meta.ClusterID).2
        (r2.selectServerFromCluster req node.meta.ClusterID).2 (idx + 1)
        (acc ++ [{ acquireDispathNode with
          idx := idx, api := some api, node := some node, exprCtx := some ctx,
          dest := (r.selectServerFromCluster req node.meta.ClusterID).1 }])
        (acc2 ++ [{ acquireDispathNode with
          idx := idx, api := some api, node := some node, exprCtx := some ctx,
          dest := (r2.selectServerFromCluster req node.meta.ClusterID).1 }])
        m1 m2 (by rw [f2, g2]; exact hs)
        (by rw [f1]; exact hr) (by rw [g1]; exact hr2)
    refine ⟨{ acquireDispathNode with
          idx := idx, api := some api, node := some node, exprCtx := some ctx,
          dest := (r.selectServerFromCluster req node.meta.ClusterID).1 } :: added,
      { acquireDispathNode with
          idx := idx, api := some api, node := some node, exprCtx := some ctx,
          dest := (r2.selectServerFromCluster req node.meta.ClusterID).1 } :: added2,
      r1, r3, ?_, ?_, by simp [hlen], by simp [hlen2], ?_⟩
    · rw [dispatcher.dispatchLoop, e1]
      simp only []
      rw [hl]
      simp
    · rw [dispatcher.dispatchLoop, e2]
      simp only []
      rw [hl2]
      simp
    · intro i n hi
      cases i with
      | zero =>
        simp only [List.getElem?_cons_zero, Option.some.injEq] at hi
        subst hi
        refine ⟨_, _, List.getElem?_cons_zero, List.getElem?_cons_zero, rfl, rfl, ?_, ?_⟩
        · intro hcl
          refine ⟨m4 hcl, ?_⟩
          simp only [m4 hcl]
        · intro hcl
          simp only [m3 hcl]
      | succ j =>
        simp only [List.getElem?_cons_succ] at hi
        obtain ⟨d, d2, h1, h2, h3, h4, h5⟩ := hall j n hi
        exact ⟨d, d2, by simpa using h1, by simpa using h2, h3, by omega, h5⟩

/-- On a matched API that is not flagged `UseDefault`, `dispatch` returns what
the node loop returns. -/
theorem dispatch_matched (r : dispatcher) (req : Request) (tag : String) (api : apiRuntime)
    (hf : (r.route.Find req.path).2.1 = true)
    (ha : r.apis (r.route.Find req.path).1 = some api)
    (hm : api.matches_ req = true)
    (hu : api.meta.UseDefault = false)
    (ds : List dispathNode) (r1 : dispatcher)
    (hl : dispatcher.dispatchLoop req tag api (r.RLock.buildExprCtx req) r.RLock 0 api.nodes [] =
      some (ds, r1)) :
    r.dispatch req tag = some ((some api, ds, r.RLock.buildExprCtx req), r1) := by
  unfold dispatcher.dispatch
  rw [findTargetAPI_matched r req api hf ha hm]
  simp only [hu, Bool.false_eq_true, if_false]
  rw [hl]

/-! ## Lemmas on the aggregation -/

/-- Storing under a name that has no entry adds the entry at the end. -/
theorem setEntry_new (attr value : String) (data : List (String × String))
    (h : attr ∉ data.map Prod.fst) : setEntry attr value data = data ++ [(attr, value)] := by
  induction data with
  | nil => rfl
  | cons e rest ih =>
    have h1 : e.1 ≠ attr := fun he => h (by simp [he])
    have h2 : attr ∉ rest.map Prod.fst := fun hm => h (by simp at hm ⊢; exact Or.inr hm)
    rw [setEntry, if_neg h1, ih h2]
    rfl

/-- Storing entries of pairwise distinct names, none of which is in the
mapping yet, adds them in the order they are stored. -/
theorem foldl_setEntry_new (l : List dispathNode) :
    ∀ (data : List (String × String)),
      (∀ d ∈ l, d.attrName ∉ data.map Prod.fst) →
      (l.map dispathNode.attrName).Nodup →
      l.foldl (fun acc d => setEntry d.attrName (d.getResponseBody.getD "") acc) data =
        data ++ l.map (fun d => (d.attrName, d.getResponseBody.getD "")) := by
  induction l with
  | nil => intro data _ _; simp
  | cons d rest ih =>
    intro data hnew hnd
    rw [List.map_cons, List.nodup_cons] at hnd
    rw [List.foldl_cons, setEntry_new _ _ _ (hnew d (List.mem_cons_self _ _)), ih _ ?_ hnd.2]
    · simp
    · intro e he hm
      rw [List.map_append, List.mem_append] at hm
      rcases hm with hm | hm
      · exact hnew e (List.mem_cons_of_mem _ he) hm
      · simp only [List.map_cons, List.map_nil, List.mem_singleton] at hm
        exact hnd.1 (by rw [← hm]; exact List.mem_map_of_mem _ he)

/-- In a list of entries of pairwise distinct names, the lookup of the name of
an entry finds that entry. -/
theorem find_entry_of_mem (kvs : List (String × String)) (k v : String)
    (hnd : (kvs.map Prod.fst).Nodup) (hmem : (k, v) ∈ kvs) :
    (kvs.find? (fun e => e.1 == k)).map Prod.snd = some v := by
  induction kvs with
  | nil => simp at hmem
  | cons e rest ih =>
    rw [List.map_cons, List.nodup_cons] at hnd
    rcases List.mem_cons.mp hmem with he | he
    · subst he
      simp
    · have hne : e.1 ≠ k := by
        intro hek
        exact hnd.1 (by rw [hek]; exact List.mem_map_of_mem Prod.fst he)
      have hb : (e.1 == k) = false := by simpa using hne
      rw [List.find?_cons, hb]
      exact ih hnd.2 he

/-- The lookup of a name that no entry has finds nothing. -/
theorem find_entry_of_not_mem (kvs : List (String × String)) (k : String)
    (h : k ∉ kvs.map Prod.fst) :
    (kvs.find? (fun e => e.1 == k)).map Prod.snd = none := by
  induction kvs with
  | nil => rfl
  | cons e rest ih =>
    have hne : e.1 ≠ k := fun hek => h (by simp [hek])
    have hb : (e.1 == k) = false := by simpa using hne
    rw [List.find?_cons, hb]
    exact ih (fun hm => h (by simp at hm ⊢; exact Or.inr hm))

/-- One `maybeDone` of a descriptor of a multi-node API: the body goes into the
context under the attribute name and the counter goes down by one. -/
theorem maybeDone_eq (dn : dispathNode) (h : Heap) (m w : Nat) (mc : multiContext) (n : Int)
    (node : apiNode) (body : String)
    (hwg : dn.wg = some w) (hmc : dn.multiCtx = some m) (hnode : dn.node = some node)
    (hbody : dn.getResponseBody = some body)
    (hm : h.multiCtxs m = some mc) (hw : h.wgs w = some n) (hn : 1 ≤ n) :
    dn.maybeDone h =
      some { multiCtxs := fun a =>
               if a = m then some (mc.completePart node.meta.AttrName body) else h.multiCtxs a,
             wgs := fun a => if a = w then some (n - 1) else h.wgs a } := by
  have hd : wgDone n = some (n - 1) := by
    unfold wgDone
    rw [if_neg (by omega)]
  unfold dispathNode.maybeDone
  simp only [hwg, hmc, hnode, hbody, hm, hw, hd]

/-- The completion of descriptors that share a wait group and an aggregation
context: every one returns, the bodies are stored in the order of completion,
and the counter goes down by the number of descriptors. -/
theorem completeAll_eq (m w : Nat) (l : List dispathNode) :
    ∀ (h : Heap) (mc : multiContext) (n : Int),
      (∀ d ∈ l, d.wg = some w ∧ d.multiCtx = some m ∧ d.node.isSome = true ∧
        d.getResponseBody.isSome = true) →
      h.multiCtxs m = some mc → h.wgs w = some n → (l.length : Int) ≤ n →
      ∃ h1, completeAll l h = some h1 ∧
        h1.multiCtxs m = some
          { data := l.foldl (fun acc d => setEntry d.attrName (d.getResponseBody.getD "") acc)
              mc.data } ∧
        h1.wgs w = some (n - l.length) := by
  induction l with
  | nil =>
    intro h mc n _ hm hw _
    exact ⟨h, rfl, hm, by simpa using hw⟩
  | cons d rest ih =>
    intro h mc n hall hm hw hn
    obtain ⟨h1, h2, h3, h4⟩ := hall d (List.mem_cons_self _ _)
    obtain ⟨node, hnode⟩ := Option.isSome_iff_exists.mp h3
    obtain ⟨body, hbody⟩ := Option.isSome_iff_exists.mp h4
    have hlen : ((d :: rest).length : Int) = rest.length + 1 := by simp
    have e := maybeDone_eq d h m w mc n node body h1 h2 hnode hbody hm hw (by omega)
    obtain ⟨hf, hf1, hf2, hf3⟩ := ih
      { multiCtxs := fun a =>
          if a = m then some (mc.completePart node.meta.AttrName body) else h.multiCtxs a,
        wgs := fun a => if a = w then some (n - 1) else h.wgs a }
      (mc.completePart node.meta.AttrName body) (n - 1)
      (fun x hx => hall x (List.mem_cons_of_mem _ hx))
      (if_pos rfl) (if_pos rfl) (by omega)
    refine ⟨hf, ?_, ?_, ?_⟩
    · rw [completeAll, e]
      exact hf1
    · rw [hf2]
      simp [dispathNode.attrName, hnode, hbody, multiContext.completePart]
    · rw [hf3, hlen]
      congr 1
      omega

/-- The loop over the retry codes finds the target exactly when the target is
one of the codes. -/
theorem matchCodes_iff (target : Int) (codes : List Int) :
    matchCodes target codes = true ↔ target ∈ codes := by
  induction codes with
  | nil => simp [matchCodes]
  | cons code rest ih =>
    unfold matchCodes
    by_cases h : code = target
    · simp [h]
    · rw [if_neg h, ih]
      have h2 : ¬ target = code := fun e => h e.symm
      simp [h2]

/-- The server selection reads the clusters and the servers of the dispatcher
only: on two dispatchers that have the same, it gives the same server and the
same clusters. -/
theorem selectServerFromCluster_congr (r r2 : dispatcher) (req : Request) (id : Nat)
    (hc : r.clusters = r2.clusters) (hs : r.servers = r2.servers) :
    (r.selectServerFromCluster req id).1 = (r2.selectServerFromCluster req id).1 ∧
    (r.selectServerFromCluster req id).2.clusters =
      (r2.selectServerFromCluster req id).2.clusters := by
  unfold dispatcher.selectServerFromCluster
  rw [← hc, ← hs]
  cases r.clusters id with
  | none => exact ⟨rfl, hc⟩
  | some cluster => exact ⟨rfl, by simp only [hc]⟩

/-- The rule loop over the same rules, on two dispatchers that have the same
clusters and servers: the same descriptor and the same clusters. -/
theorem adjustLoop_congr (r r2 : dispatcher) (apiID : Nat) (req : Request) (tag : String)
    (dn : dispathNode) (l : List routingRuntime)
    (hc : r.clusters = r2.clusters) (hs : r.servers = r2.servers) :
    (r.adjustLoop apiID req tag l dn).1 = (r2.adjustLoop apiID req tag l dn).1 ∧
    (r.adjustLoop apiID req tag l dn).2.clusters =
      (r2.adjustLoop apiID req tag l dn).2.clusters := by
  induction l with
  | nil => exact ⟨rfl, hc⟩
  | cons routing rest ih =>
    rw [dispatcher.adjustLoop, dispatcher.adjustLoop]
    by_cases hm : (routing.isUp && routing.matches_ apiID req tag) = true
    · rw [if_pos hm, if_pos hm]
      obtain ⟨h1, h2⟩ := selectServerFromCluster_congr r r2 req routing.meta.ClusterID hc hs
      cases routing.meta.Strategy
      · exact ⟨by simp only [h1], h2⟩
      · exact ⟨by simp only [h1], h2⟩
    · rw [if_neg hm, if_neg hm]
      exact ih

/-- The rule loop over a list of rules is the rule loop over the rules of the
list that are up. -/
theorem adjustLoop_filter_isUp (r : dispatcher) (apiID : Nat) (req : Request) (tag : String)
    (dn : dispathNode) (l : List routingRuntime) :
    r.adjustLoop apiID req tag (l.filter (fun x => x.isUp)) dn =
      r.adjustLoop apiID req tag l dn := by
  induction l with
  | nil => rfl
  | cons routing rest ih =>
    by_cases hu : routing.isUp = true
    · rw [List.filter_cons_of_pos hu, dispatcher.adjustLoop]
      conv_rhs => rw [dispatcher.adjustLoop]
      rw [ih]
    · have hf : routing.isUp = false := by simpa using hu
      rw [List.filter_cons_of_neg hu, ih]
      conv_rhs => rw [dispatcher.adjustLoop]
      simp [hf]

/-- The lookup of a name just stored finds the value stored. -/
theorem find_setEntry_same (attr value : String) (data : List (String × String)) :
    ((setEntry attr value data).find? (fun e => e.1 == attr)).map Prod.snd = some value := by
  induction data with
  | nil => simp [setEntry]
  | cons e rest ih =>
    unfold setEntry
    by_cases h : e.1 = attr
    · rw [if_pos h]
      simp
    · rw [if_neg h]
      have hb : (e.1 == attr) = false := by simpa using h
      rw [List.find?_cons, hb]
      exact ih

/-- The lookup of another name than the one just stored finds what it found
before. -/
theorem find_setEntry_other (attr value key : String) (data : List (String × String))
    (hk : key ≠ attr) :
    ((setEntry attr value data).find? (fun e => e.1 == key)).map Prod.snd =
      (data.find? (fun e => e.1 == key)).map Prod.snd := by
  induction data with
  | nil =>
    have hb : (attr == key) = false := by simpa using fun e => hk e.symm
    simp [setEntry, hb]
  | cons e rest ih =>
    unfold setEntry
    by_cases h : e.1 = attr
    · rw [if_pos h]
      have hb : (attr == key) = false := by simpa using fun e => hk e.symm
      have hb2 : (e.1 == key) = false := by rw [h]; exact hb
      rw [List.find?_cons, List.find?_cons, hb, hb2]
    · rw [if_neg h, List.find?_cons, List.find?_cons]
      cases (e.1 == key)
      · exact ih
      · rfl

/-! ## Lemmas on the origin of the destinations -/

/-- A selection on a dispatcher that is `r0` with balancers advanced gives a
destination from the registry of `r0`, and leaves such a dispatcher. -/
theorem selectServerFromCluster_registry (r0 r : dispatcher) (req : Request) (id : Nat)
    (hb : sameBalancers r0 r) :
    fromRegistry r0 req (r.selectServerFromCluster req id).1 ∧
      sameBalancers r0 (r.selectServerFromCluster req id).2 := by
  unfold dispatcher.selectServerFromCluster
  cases hc : r.clusters id with
  | none => exact ⟨Or.inl rfl, hb⟩
  | some cluster =>
    obtain ⟨cluster0, h0, hsel⟩ := hb.2 id cluster hc
    refine ⟨Or.inr ⟨id, cluster0, cluster.lbState, h0, ?_⟩, hb.1, ?_⟩
    · show r.servers (cluster.lbSelect cluster.lbState req).1 = _
      rw [hb.1, hsel]
    · intro k cl hk
      by_cases hki : k = id
      · have hk2 : some (cluster.selectServer req).2 = some cl := by
          rw [← hk]
          exact (if_pos hki).symm
        simp only [Option.some.injEq] at hk2
        subst hki
        exact ⟨cluster0, h0, by rw [← hk2]; exact hsel⟩
      · have hk2 : r.clusters k = some cl := by
          rw [← hk]
          exact (if_neg hki).symm
        exact hb.2 k cl hk2

/-- The rule loop keeps the destinations of a descriptor within the registry. -/
theorem adjustLoop_registry (r0 r : dispatcher) (apiID : Nat) (req : Request) (tag : String)
    (l : List routingRuntime) (dn : dispathNode)
    (hb : sameBalancers r0 r) (hd : fromRegistry r0 req dn.dest)
    (hc : fromRegistry r0 req dn.copyTo) :
    fromRegistry r0 req (r.adjustLoop apiID req tag l dn).1.dest ∧
      fromRegistry r0 req (r.adjustLoop apiID req tag l dn).1.copyTo ∧
      sameBalancers r0 (r.adjustLoop apiID req tag l dn).2 := by
  induction l with
  | nil => exact ⟨hd, hc, hb⟩
  | cons routing rest ih =>
    rw [dispatcher.adjustLoop]
    by_cases hm : (routing.isUp && routing.matches_ apiID req tag) = true
    · rw [if_pos hm]
      obtain ⟨h1, h2⟩ := selectServerFromCluster_registry r0 r req routing.meta.ClusterID hb
      cases routing.meta.Strategy
      · exact ⟨hd, h1, h2⟩
      · exact ⟨h1, hc, h2⟩
    · rw [if_neg hm]
      exact ih

/-- What `selectServer` returns has its destinations within the registry. -/
theorem selectServer_registry (r0 r r1 : dispatcher) (req : Request) (tag : String)
    (dn d : dispathNode) (h : r.selectServer req dn tag = some (d, r1))
    (hb : sameBalancers r0 r) (hc : fromRegistry r0 req dn.copyTo) :
    fromRegistry r0 req d.dest ∧ fromRegistry r0 req d.copyTo ∧ sameBalancers r0 r1 := by
  cases hn : dn.node with
  | none =>
    unfold dispatcher.selectServer at h
    rw [hn] at h
    exact absurd h (by simp)
  | some node =>
    cases ha : dn.api with
    | none =>
      unfold dispatcher.selectServer at h
      rw [hn, ha] at h
      exact absurd h (by simp)
    | some api =>
      rw [selectServer_eq r req dn tag node api hn ha] at h
      simp only [Option.some.injEq] at h
      obtain ⟨s1, s2⟩ := selectServerFromCluster_registry r0 r req node.meta.ClusterID hb
      have key := adjustLoop_registry r0 (r.selectServerFromCluster req node.meta.ClusterID).2
        api.meta.ID req tag r.routings
        { dn with dest := (r.selectServerFromCluster req node.meta.ClusterID).1 } s2 s1 hc
      rw [h] at key
      exact key

/-- The descriptors the node loop returns have their destinations within the
registry, when those it was given have. -/
theorem dispatchLoop_registry (r0 : dispatcher) (req : Request) (tag : String)
    (api : apiRuntime) (ctx : exprCtx) (nodes : List apiNode) :
    ∀ (r : dispatcher) (idx : Nat) (acc ds : List dispathNode) (r1 : dispatcher),
      dispatcher.dispatchLoop req tag api ctx r idx nodes acc = some (ds, r1) →
      sameBalancers r0 r →
      (∀ d ∈ acc, fromRegistry r0 req d.dest ∧ fromRegistry r0 req d.copyTo) →
      ∀ d ∈ ds, fromRegistry r0 req d.dest ∧ fromRegistry r0 req d.copyTo := by
  induction nodes with
  | nil =>
    intro r idx acc ds r1 h _ hacc
    simp only [dispatcher.dispatchLoop, Option.some.injEq, Prod.mk.injEq] at h
    rw [← h.1]
    exact hacc
  | cons node rest ih =>
    intro r idx acc ds r1 h hb hacc
    rw [dispatcher.dispatchLoop] at h
    cases hs : r.selectServer req
        { acquireDispathNode with
          idx := idx, api := some api, node := some node, exprCtx := some ctx } tag with
    | none => rw [hs] at h; exact absurd h (by simp)
    | some p =>
      obtain ⟨dn, r2⟩ := p
      rw [hs] at h
      simp only at h
      obtain ⟨k1, k2, k3⟩ := selectServer_registry r0 r r2 req tag _ dn hs hb (Or.inl rfl)
      refine ih r2 (idx + 1) (acc ++ [dn]) ds r1 h k3 ?_
      intro d hd
      rcases List.mem_append.mp hd with hd | hd
      · exact hacc d hd
      · rw [List.mem_singleton.mp hd]
        exact ⟨k1, k2⟩

/-- The effect of `maybeDone`. On a descriptor without wait group it leaves the
heap, the aggregation contexts and the counters, as it is. On a descriptor
with a wait group counting at least one, an aggregation context and a node,
for which `getResponseBody` returns, it returns, the context of the descriptor
then holds the body under the attribute name of the node and, under every
other name, what it held before, the counter of the wait group of the
descriptor is one less, and no other context and no other counter has
changed. -/
theorem maybeDone_effect (dn : dispathNode) (h : Heap) :
    (dn.wg = none → dn.maybeDone h = some h) ∧
    (∀ (w m : Nat) (node : apiNode) (body : String) (mc : multiContext) (n : Int),
      dn.wg = some w → dn.multiCtx = some m → dn.node = some node →
      dn.getResponseBody = some body → h.multiCtxs m = some mc → h.wgs w = some n →
      1 ≤ n →
      ∃ h1 mc1, dn.maybeDone h = some h1 ∧
        h1.multiCtxs m = some mc1 ∧
        mc1 = mc.completePart node.meta.AttrName body ∧
        mc1.get node.meta.AttrName = some body ∧
        (∀ key, key ≠ node.meta.AttrName → mc1.get key = mc.get key) ∧
        (∀ a, a ≠ m → h1.multiCtxs a = h.multiCtxs a) ∧
        h1.wgs w = some (n - 1) ∧
        (∀ a, a ≠ w → h1.wgs a = h.wgs a)) := by
  constructor
  · intro hw
    unfold dispathNode.maybeDone
    rw [hw]
  · intro w m node body mc n hwg hmc hnode hbody hm hw hn
    refine ⟨_, mc.completePart node.meta.AttrName body,
      maybeDone_eq dn h m w mc n node body hwg hmc hnode hbody hm hw hn,
      if_pos rfl, rfl, ?_, ?_, fun a ha => if_neg ha, if_pos rfl, fun a ha => if_neg ha⟩
    · exact find_setEntry_same _ _ _
    · intro key hk
      exact find_setEntry_other _ _ key _ hk

/-- The effect of `maybeDone` on the sample heap: a descriptor without wait
group changes nothing; the descriptor of the node `user` adds its body to a
context that holds the entry of `order` and takes the counter from 1 to 0. -/
theorem maybeDone_effect_witness :
    dispathNode.maybeDone { doneNode "user" "second" with wg := none } (freshHeap 1) =
      some (freshHeap 1) ∧
    ∃ h1 mc1,
      (doneNode "user" "second").maybeDone
        { multiCtxs := fun a => if a = 0 then some { data := [("order", "first")] } else none,
          wgs := fun a => if a = 0 then some 1 else none } = some h1 ∧
      h1.multiCtxs 0 = some mc1 ∧
      mc1 = { data := [("order", "first"), ("user", "second")] } ∧
      mc1.get "user" = some "second" ∧
      mc1.get "order" = some "first" ∧
      h1.wgs 0 = some 0 := by
  refine ⟨(maybeDone_effect _ (freshHeap 1)).1 rfl, ?_⟩
  obtain ⟨h1, mc1, e1, e2, e3, e4, e5, _, e7, _⟩ :=
    (maybeDone_effect (doneNode "user" "second")
      { multiCtxs := fun a => if a = 0 then some { data := [("order", "first")] } else none,
        wgs := fun a => if a = 0 then some 1 else none }).2
      0 0 (sampleNode "user") "second" { data := [("order", "first")] } 1
      rfl rfl rfl rfl rfl rfl (by decide)
  refine ⟨h1, mc1, e1, e2, e3, e4, ?_, e7⟩
  rw [e5 "order" (by decide)]
  rfl

/-! ## The claims -/

/-- C1: when the route lookup finds no API id for the path of the request, or
the API found rejects the request through its secondary predicate, `dispatch`
returns a nil API and no descriptor, and the dispatcher after the call is the
one before it with the read lock taken: no descriptor was built and no cluster
was asked for a server. -/
theorem dispatch_no_match (r : dispatcher) (req : Request) (requestTag : String)
    (h : (r.route.Find req.path).2.1 = false ∨
      ∃ api, r.apis (r.route.Find req.path).1 = some api ∧ api.matches_ req = false) :
    r.dispatch req requestTag = some ((none, [], r.RLock.buildExprCtx req), r.RLock) := by
  have ht : r.RLock.findTargetAPI req = some none := by
    unfold dispatcher.findTargetAPI dispatcher.RLock
    simp only []
    rcases h with h | ⟨api, h1, h2⟩
    · simp [h]
    · by_cases hf : (r.route.Find req.path).2.1 = true
      · simp [hf, h1, h2]
      · simp [hf]
  unfold dispatcher.dispatch
  rw [ht]

/-- The two cases of C1 on the sample gateway: a path without route, and an
API whose secondary predicate rejects the request. -/
theorem dispatch_no_match_witness :
    (sampleDispatcher sampleAPI []).dispatch otherReq "t" =
        some ((none, [], { Origin := some otherReq, Params := [] }),
          (sampleDispatcher sampleAPI []).RLock) ∧
      (sampleDispatcher pickyAPI []).dispatch sampleReq "t" =
        some ((none, [], { Origin := some sampleReq, Params := [("id", "42")] }),
          (sampleDispatcher pickyAPI []).RLock) :=
  ⟨dispatch_no_match (sampleDispatcher sampleAPI []) otherReq "t" (Or.inl rfl),
   dispatch_no_match (sampleDispatcher pickyAPI []) sampleReq "t"
     (Or.inr ⟨pickyAPI, rfl, rfl⟩)⟩

/-- C2: for a matched API that is not flagged `UseDefault`, `dispatch` returns
that API and exactly one descriptor per node, in declaration order: the
descriptor at position `i` has `idx = i`, the node at position `i`, the matched
API, and the expression context `dispatch` returns. -/
theorem dispatch_descriptors (r : dispatcher) (req : Request) (requestTag : String)
    (api : apiRuntime)
    (hf : (r.route.Find req.path).2.1 = true)
    (ha : r.apis (r.route.Find req.path).1 = some api)
    (hm : api.matches_ req = true)
    (hu : api.meta.UseDefault = false) :
    ∃ dispathes ctx r1,
      r.dispatch req requestTag = some ((some api, dispathes, ctx), r1) ∧
      dispathes.length = api.nodes.length ∧
      ∀ (i : Nat) (node : apiNode), api.nodes[i]? = some node →
        ∃ dn, dispathes[i]? = some dn ∧ dn.idx = i ∧ dn.node = some node ∧
          dn.api = some api ∧ dn.exprCtx = some ctx := by
  obtain ⟨added, r1, hl, hlen, hall⟩ :=
    dispatchLoop_spec req requestTag api (r.RLock.buildExprCtx req) api.nodes r.RLock 0 []
  refine ⟨added, r.RLock.buildExprCtx req, r1, ?_, hlen, ?_⟩
  · exact dispatch_matched r req requestTag api hf ha hm hu added r1 (by simpa using hl)
  · intro i node hi
    obtain ⟨dn, h1, h2, h3⟩ := hall i node hi
    exact ⟨dn, h1, by omega, h3⟩

/-- C2 on the sample gateway: API 7 has two nodes and `dispatch` gives two
descriptors. -/
theorem dispatch_descriptors_witness :
    ∃ dispathes ctx r1,
      (sampleDispatcher sampleAPI []).dispatch sampleReq "t" =
        some ((some sampleAPI, dispathes, ctx), r1) ∧
      dispathes.length = sampleAPI.nodes.length ∧
      ∀ (i : Nat) (node : apiNode), sampleAPI.nodes[i]? = some node →
        ∃ dn, dispathes[i]? = some dn ∧ dn.idx = i ∧ dn.node = some node ∧
          dn.api = some sampleAPI ∧ dn.exprCtx = some ctx :=
  dispatch_descriptors (sampleDispatcher sampleAPI []) sampleReq "t" sampleAPI rfl rfl rfl rfl

/-- C3: for a matched API flagged `UseDefault`, `dispatch` returns that API and
no descriptor, whatever its nodes, and the dispatcher after the call is the one
before it with the read lock taken: no cluster was asked for a server. -/
theorem dispatch_use_default (r : dispatcher) (req : Request) (requestTag : String)
    (api : apiRuntime)
    (hf : (r.route.Find req.path).2.1 = true)
    (ha : r.apis (r.route.Find req.path).1 = some api)
    (hm : api.matches_ req = true)
    (hu : api.meta.UseDefault = true) :
    r.dispatch req requestTag = some ((some api, [], r.RLock.buildExprCtx req), r.RLock) := by
  unfold dispatcher.dispatch
  rw [findTargetAPI_matched r req api hf ha hm]
  simp only [hu, if_true]

/-- C3 on the sample gateway: the fenced API has two nodes and `dispatch` gives
no descriptor. -/
theorem dispatch_use_default_witness :
    fencedAPI.nodes.length = 2 ∧
      (sampleDispatcher fencedAPI []).dispatch sampleReq "t" =
        some ((some fencedAPI, [], { Origin := some sampleReq, Params := [("id", "42")] }),
          (sampleDispatcher fencedAPI []).RLock) :=
  ⟨rfl, dispatch_use_default (sampleDispatcher fencedAPI []) sampleReq "t" fencedAPI
    rfl rfl rfl rfl⟩

/-- C4: when the rule applied to a descriptor, the first rule that is up and
matches the API and the request, has strategy `Split`, `selectServer` returns
and the primary destination of the descriptor is the server selected from the
target cluster of the rule, in the dispatcher as the selection from the own
cluster of the node left it; `copyTo` is what it was. -/
theorem selectServer_split (r : dispatcher) (req : Request) (dn : dispathNode)
    (requestTag : String) (node : apiNode) (api : apiRuntime) (rule : routingRuntime)
    (hn : dn.node = some node) (ha : dn.api = some api)
    (hr : firstMatch r.routings api.meta.ID req requestTag = some rule)
    (hs : rule.meta.Strategy = RoutingStrategy.Split) :
    ∃ d r1, r.selectServer req dn requestTag = some (d, r1) ∧
      d.dest = ((r.selectServerFromCluster req node.meta.ClusterID).2.selectServerFromCluster
        req rule.meta.ClusterID).1 ∧
      d.copyTo = dn.copyTo := by
  rw [selectServer_eq r req dn requestTag node api hn ha,
    (adjustLoop_firstMatch _ _ _ _ _ _ rule hr).1,
    adjustLoop_split _ _ _ _ _ rule
      (adjustLoop_firstMatch r api.meta.ID req requestTag dn _ rule hr).2 hs]
  exact ⟨_, _, rfl, rfl, rfl⟩

/-- C4 on the sample gateway: the node is of cluster 10, the split rule sends
API 7 to cluster 20, and the destination is server 3 of cluster 20. -/
theorem selectServer_split_witness :
    ∃ d r1,
      (sampleDispatcher sampleAPI [sampleRule 1 RoutingStrategy.Split Status.Up]).selectServer
          sampleReq
          { emptyDispathNode with node := some (sampleNode "order"), api := some sampleAPI }
          "t" = some (d, r1) ∧
      d.dest = some { meta := { ID := 3, Addr := "10.0.0.3:80" } } ∧
      d.copyTo = none :=
  selectServer_split
    (sampleDispatcher sampleAPI [sampleRule 1 RoutingStrategy.Split Status.Up]) sampleReq
    { emptyDispathNode with node := some (sampleNode "order"), api := some sampleAPI } "t"
    (sampleNode "order") sampleAPI (sampleRule 1 RoutingStrategy.Split Status.Up)
    rfl rfl rfl rfl

/-- C5: when the rule applied to a descriptor has strategy `Copy`, `selectServer`
returns, the primary destination of the descriptor is the server selected from
the own cluster of the node, the same as on the dispatcher without any rule,
and `copyTo` is the server selected from the target cluster of the rule. -/
theorem selectServer_copy (r : dispatcher) (req : Request) (dn : dispathNode)
    (requestTag : String) (node : apiNode) (api : apiRuntime) (rule : routingRuntime)
    (hn : dn.node = some node) (ha : dn.api = some api)
    (hr : firstMatch r.routings api.meta.ID req requestTag = some rule)
    (hs : rule.meta.Strategy = RoutingStrategy.Copy) :
    ∃ d r1 d0 r0,
      r.selectServer req dn requestTag = some (d, r1) ∧
      ({ r with routings := [] } : dispatcher).selectServer req dn requestTag = some (d0, r0) ∧
      d.dest = d0.dest ∧
      d.dest = (r.selectServerFromCluster req node.meta.ClusterID).1 ∧
      d.copyTo = ((r.selectServerFromCluster req node.meta.ClusterID).2.selectServerFromCluster
        req rule.meta.ClusterID).1 := by
  rw [selectServer_eq r req dn requestTag node api hn ha,
    selectServer_eq { r with routings := [] } req dn requestTag node api hn ha,
    (adjustLoop_firstMatch _ _ _ _ _ _ rule hr).1,
    adjustLoop_copy _ _ _ _ _ rule
      (adjustLoop_firstMatch r api.meta.ID req requestTag dn _ rule hr).2 hs]
  refine ⟨_, _, _, _, rfl, rfl, ?_, rfl, rfl⟩
  simp only [dispatcher.adjustLoop, dispatcher.selectServerFromCluster]
  cases r.clusters node.meta.ClusterID <;> rfl

/-- C5 on the sample gateway: the node is of cluster 10, the copy rule copies
API 7 to cluster 20; the destination is server 1 of cluster 10, with and
without the rule, and the copy goes to server 3. -/
theorem selectServer_copy_witness :
    ∃ d r1 d0 r0,
      (sampleDispatcher sampleAPI [sampleRule 1 RoutingStrategy.Copy Status.Up]).selectServer
          sampleReq
          { emptyDispathNode with node := some (sampleNode "order"), api := some sampleAPI }
          "t" = some (d, r1) ∧
      (sampleDispatcher sampleAPI []).selectServer sampleReq
          { emptyDispathNode with node := some (sampleNode "order"), api := some sampleAPI }
          "t" = some (d0, r0) ∧
      d.dest = d0.dest ∧
      d.dest = some { meta := { ID := 1, Addr := "10.0.0.1:80" } } ∧
      d.copyTo = some { meta := { ID := 3, Addr := "10.0.0.3:80" } } :=
  selectServer_copy
    (sampleDispatcher sampleAPI [sampleRule 1 RoutingStrategy.Copy Status.Up]) sampleReq
    { emptyDispathNode with node := some (sampleNode "order"), api := some sampleAPI } "t"
    (sampleNode "order") sampleAPI (sampleRule 1 RoutingStrategy.Copy Status.Up)
    rfl rfl rfl rfl

/-- C7, as stated, fails: on the sample gateway no reader holds the lock before
`dispatch` and one reader holds it when `dispatch` has returned, on the path
without route match. -/
theorem dispatch_returns_with_read_lock :
    (sampleDispatcher sampleAPI []).readers = 0 ∧
      ((sampleDispatcher sampleAPI []).dispatch otherReq "t").map (fun res => res.2.readers) =
        some 1 ∧
      ((sampleDispatcher sampleAPI []).dispatch otherReq "t").map (fun res => res.2.readers) ≠
        some (sampleDispatcher sampleAPI []).readers := by
  refine ⟨rfl, rfl, ?_⟩
  decide

/-- C7, amended: on every path through `dispatch` that returns (every request
whose route, when found, leads to an API of the dispatcher), the read lock
`dispatch` acquires is still held on return, one reader more than before the
call; `dispatchCompleted` then releases it, and the number of readers is again
what it was before `dispatch`. -/
theorem dispatch_then_completed_read_lock (r : dispatcher) (req : Request)
    (requestTag : String)
    (h : (r.route.Find req.path).2.1 = true →
      (r.apis (r.route.Find req.path).1).isSome = true) :
    ∃ res r1 r2, r.dispatch req requestTag = some (res, r1) ∧
      r1.readers = r.readers + 1 ∧
      r1.dispatchCompleted = some r2 ∧ r2.readers = r.readers := by
  have key : ∃ res r1, r.dispatch req requestTag = some (res, r1) ∧
      r1.readers = r.readers + 1 := by
    unfold dispatcher.dispatch
    cases ht : r.RLock.findTargetAPI req with
    | none =>
      exfalso
      unfold dispatcher.findTargetAPI dispatcher.RLock at ht
      simp only [] at ht
      by_cases hf : (r.route.Find req.path).2.1 = true
      · have hs := h hf
        rw [if_pos hf] at ht
        cases ha : r.apis (r.route.Find req.path).1 with
        | none => rw [ha] at hs; exact absurd hs (by simp)
        | some api =>
          rw [ha] at ht
          by_cases hm : api.matches_ req = true
          · simp [hm] at ht
          · simp [hm] at ht
      · rw [if_neg hf] at ht
        exact absurd ht (by simp)
    | some t =>
      cases t with
      | none => exact ⟨_, _, rfl, rfl⟩
      | some api =>
        simp only []
        by_cases hu : api.meta.UseDefault = true
        · rw [if_pos hu]
          exact ⟨_, _, rfl, rfl⟩
        · rw [if_neg hu]
          obtain ⟨added, r1, hl, _, _⟩ :=
            dispatchLoop_spec req requestTag api (r.RLock.buildExprCtx req) api.nodes r.RLock 0 []
          rw [hl]
          exact ⟨_, r1, rfl, dispatchLoop_readers req requestTag api _ api.nodes r.RLock 0 []
            _ r1 hl⟩
  obtain ⟨res, r1, h1, h2⟩ := key
  refine ⟨res, r1, { r1 with readers := r1.readers - 1 }, h1, h2, ?_, ?_⟩
  · unfold dispatcher.dispatchCompleted dispatcher.RUnlock
    rw [if_neg (by omega)]
  · show r1.readers - 1 = r.readers
    omega

/-- C7, amended, on the sample gateway, on the path that builds descriptors. -/
theorem dispatch_then_completed_read_lock_witness :
    ∃ res r1 r2, (sampleDispatcher sampleAPI []).dispatch sampleReq "t" = some (res, r1) ∧
      r1.readers = (sampleDispatcher sampleAPI []).readers + 1 ∧
      r1.dispatchCompleted = some r2 ∧ r2.readers = (sampleDispatcher sampleAPI []).readers :=
  dispatch_then_completed_read_lock (sampleDispatcher sampleAPI []) sampleReq "t" (fun _ => rfl)

/-- C9: when the cluster `c` is absent from the cluster map and no rule is up
and matches, `dispatch` on a matched API returns one descriptor per node, the
nodes of cluster `c` included: the descriptor of such a node has no
destination and is otherwise the descriptor it would be if the cluster
existed, and the descriptor of every node of another cluster is the one it
would be if the cluster existed (as `cl`, whatever `cl` is). -/
theorem dispatch_missing_cluster (r : dispatcher) (req : Request) (requestTag : String)
    (api : apiRuntime) (c : Nat) (cl : clusterRuntime)
    (hf : (r.route.Find req.path).2.1 = true)
    (ha : r.apis (r.route.Find req.path).1 = some api)
    (hm : api.matches_ req = true)
    (hu : api.meta.UseDefault = false)
    (hc : r.clusters c = none)
    (hr : ∀ x ∈ r.routings, (x.isUp && x.matches_ api.meta.ID req requestTag) = false) :
    ∃ dispathes dispathes2 ctx r1 r3,
      r.dispatch req requestTag = some ((some api, dispathes, ctx), r1) ∧
      ({ r with clusters := fun k => if k = c then some cl else r.clusters k } :
        dispatcher).dispatch req requestTag = some ((some api, dispathes2, ctx), r3) ∧
      dispathes.length = api.nodes.length ∧
      ∀ (i : Nat) (node : apiNode), api.nodes[i]? = some node →
        ∃ d d2, dispathes[i]? = some d ∧ dispathes2[i]? = some d2 ∧
          d.node = some node ∧ d.idx = i ∧
          (node.meta.ClusterID = c → d.dest = none ∧ d = { d2 with dest := none }) ∧
          (node.meta.ClusterID ≠ c → d = d2) := by
  obtain ⟨added, added2, r1, r3, hl, hl2, hlen, _, hall⟩ :=
    dispatchLoop_missing req requestTag api (r.RLock.buildExprCtx req) c api.nodes
      r.RLock
      ({ r with clusters := fun k => if k = c then some cl else r.clusters k } :
        dispatcher).RLock
      0 [] [] hc (fun k hk => (if_neg hk).symm) rfl hr hr
  refine ⟨added, added2, r.RLock.buildExprCtx req, r1, r3, ?_, ?_, hlen, ?_⟩
  · exact dispatch_matched r req requestTag api hf ha hm hu added r1 (by simpa using hl)
  · exact dispatch_matched
      ({ r with clusters := fun k => if k = c then some cl else r.clusters k } : dispatcher)
      req requestTag api hf ha hm hu added2 r3 (by simpa using hl2)
  · intro i node hi
    obtain ⟨d, d2, h1, h2, h3, h4, h5⟩ := hall i node hi
    exact ⟨d, d2, h1, h2, h3, by omega, h5⟩

/-- C9 on the sample gateway: the second node of the API is of cluster 30,
which the gateway does not have; the comparison is with the gateway in which
cluster 30 always picks server 2. -/
theorem dispatch_missing_cluster_witness :
    ∃ dispathes dispathes2 ctx r1 r3,
      (sampleDispatcher strayAPI []).dispatch sampleReq "t" =
        some ((some strayAPI, dispathes, ctx), r1) ∧
      ({ sampleDispatcher strayAPI [] with
          clusters := fun k =>
            if k = 30 then some { lbState := 0, lbSelect := fun s _ => (2, s) }
            else (sampleDispatcher strayAPI []).clusters k } :
        dispatcher).dispatch sampleReq "t" = some ((some strayAPI, dispathes2, ctx), r3) ∧
      dispathes.length = strayAPI.nodes.length ∧
      ∀ (i : Nat) (node : apiNode), strayAPI.nodes[i]? = some node →
        ∃ d d2, dispathes[i]? = some d ∧ dispathes2[i]? = some d2 ∧
          d.node = some node ∧ d.idx = i ∧
          (node.meta.ClusterID = 30 → d.dest = none ∧ d = { d2 with dest := none }) ∧
          (node.meta.ClusterID ≠ 30 → d = d2) :=
  dispatch_missing_cluster (sampleDispatcher strayAPI []) sampleReq "t" strayAPI 30
    { lbState := 0, lbSelect := fun s _ => (2, s) } rfl rfl rfl rfl rfl
    (fun _ hx => absurd hx (List.not_mem_nil _))

/-- C10, as stated, fails: two nodes of one API with the same attribute name
leave one entry in the aggregation context, not two, and the body it holds is
the body of the descriptor that completed last. -/
theorem completeAll_same_attribute :
    (completeAll [doneNode "order" "first", doneNode "order" "second"] (freshHeap 2)).bind
        (fun h => h.multiCtxs 0) = some { data := [("order", "second")] } ∧
      (completeAll [doneNode "order" "second", doneNode "order" "first"] (freshHeap 2)).bind
        (fun h => h.multiCtxs 0) = some { data := [("order", "first")] } := by
  constructor <;> rfl

/-- C10, amended: for the `N` descriptors of a multi-node API whose nodes have
pairwise distinct attribute names, which share a wait group counting at least
`N` and an aggregation context that starts empty, and each of which has a
node and a response body: in whatever order the descriptors complete,
`maybeDone` returns for each, and the context then holds exactly `N` entries,
the entry under the attribute name of each node being the `getResponseBody`
of its descriptor, and no entry under any other name. -/
theorem completeAll_aggregates (dns order : List dispathNode) (h : Heap) (m w : Nat) (n : Int)
    (hperm : order.Perm dns)
    (hall : ∀ d ∈ dns, d.wg = some w ∧ d.multiCtx = some m ∧ d.node.isSome = true ∧
      d.getResponseBody.isSome = true)
    (hnd : (dns.map dispathNode.attrName).Nodup)
    (hm : h.multiCtxs m = some { data := [] })
    (hw : h.wgs w = some n) (hn : (dns.length : Int) ≤ n) :
    ∃ h1 mc, completeAll order h = some h1 ∧ h1.multiCtxs m = some mc ∧
      mc.data.length = dns.length ∧
      (∀ d ∈ dns, mc.get d.attrName = d.getResponseBody) ∧
      (∀ key, key ∉ dns.map dispathNode.attrName → mc.get key = none) := by
  have hlen : order.length = dns.length := hperm.length_eq
  have hnd2 : (order.map dispathNode.attrName).Nodup :=
    (hperm.map dispathNode.attrName).nodup_iff.mpr hnd
  obtain ⟨h1, e1, e2, _⟩ := completeAll_eq m w order h { data := [] } n
    (fun d hd => hall d (hperm.subset hd)) hm hw (by omega)
  rw [foldl_setEntry_new order [] (fun _ _ => by simp) hnd2, List.nil_append] at e2
  have hkeys : (order.map (fun d => (d.attrName, d.getResponseBody.getD ""))).map Prod.fst =
      order.map dispathNode.attrName := by
    rw [List.map_map]
    rfl
  refine ⟨h1, _, e1, e2, by simp [hlen], ?_, ?_⟩
  · intro d hd
    obtain ⟨_, _, _, hb⟩ := hall d hd
    obtain ⟨body, hbody⟩ := Option.isSome_iff_exists.mp hb
    unfold multiContext.get
    rw [hbody]
    apply find_entry_of_mem _ _ _ (by rw [hkeys]; exact hnd2)
    have hmem : d ∈ order := hperm.symm.subset hd
    have := List.mem_map_of_mem (fun d => (d.attrName, d.getResponseBody.getD "")) hmem
    simpa [hbody] using this
  · intro key hkey
    unfold multiContext.get
    apply find_entry_of_not_mem
    rw [hkeys]
    intro hk
    exact hkey ((hperm.map dispathNode.attrName).subset hk)

/-- C10, amended, on two descriptors that complete in the reverse of their
order in the API. -/
theorem completeAll_aggregates_witness :
    ∃ h1 mc,
      completeAll [doneNode "user" "second", doneNode "order" "first"] (freshHeap 2) = some h1 ∧
      h1.multiCtxs 0 = some mc ∧
      mc.data.length = [doneNode "order" "first", doneNode "user" "second"].length ∧
      (∀ d ∈ [doneNode "order" "first", doneNode "user" "second"],
        mc.get d.attrName = d.getResponseBody) ∧
      (∀ key, key ∉ [doneNode "order" "first", doneNode "user" "second"].map
        dispathNode.attrName → mc.get key = none) :=
  completeAll_aggregates [doneNode "order" "first", doneNode "user" "second"]
    [doneNode "user" "second", doneNode "order" "first"] (freshHeap 2) 0 0 2
    (List.Perm.swap _ _ [])
    (fun d hd => by
      rcases List.mem_cons.mp hd with rfl | hd
      · exact ⟨rfl, rfl, rfl, rfl⟩
      · rw [List.mem_singleton.mp hd]
        exact ⟨rfl, rfl, rfl, rfl⟩)
    (by decide) rfl rfl (by decide)

/-- C11: for a descriptor whose node has a retry strategy and every observed
status `s`, `matchAllRetryStrategy` and `matchRetryStrategy s` return, and the
retry condition, one or the other, holds exactly when the code set of the
strategy is empty or contains `s`. -/
theorem retry_condition_iff (dn : dispathNode) (node : apiNode) (strategy : RetryStrategy)
    (s : Int)
    (hn : dn.node = some node) (hs : node.meta.RetryStrategy = some strategy) :
    ∃ all one, dn.matchAllRetryStrategy = some all ∧ dn.matchRetryStrategy s = some one ∧
      ((all || one) = true ↔ strategy.Codes = [] ∨ s ∈ strategy.Codes) := by
  have hr : dn.retryStrategy = some (some strategy) := by
    unfold dispathNode.retryStrategy
    rw [hn]
    simp only [hs]
  refine ⟨decide (strategy.Codes.length = 0), matchCodes s strategy.Codes, ?_, ?_, ?_⟩
  · unfold dispathNode.matchAllRetryStrategy
    rw [hr]
  · unfold dispathNode.matchRetryStrategy
    rw [hr]
  · rw [Bool.or_eq_true, matchCodes_iff, decide_eq_true_eq, List.length_eq_zero]

/-- C11 on the cases the claim names: with the codes 502 and 503 the condition
holds for 503 and not for 500, and with no code it holds for the status 500. -/
theorem retry_condition_iff_witness :
    (∃ all one, (retryNode [502, 503]).matchAllRetryStrategy = some all ∧
      (retryNode [502, 503]).matchRetryStrategy 503 = some one ∧ (all || one) = true) ∧
    (∃ all one, (retryNode [502, 503]).matchAllRetryStrategy = some all ∧
      (retryNode [502, 503]).matchRetryStrategy 500 = some one ∧ (all || one) = false) ∧
    (∃ all one, (retryNode []).matchAllRetryStrategy = some all ∧
      (retryNode []).matchRetryStrategy 500 = some one ∧ (all || one) = true) := by
  refine ⟨?_, ?_, ?_⟩
  · obtain ⟨all, one, h1, h2, h3⟩ :=
      retry_condition_iff (retryNode [502, 503]) _ { Codes := [502, 503] } 503 rfl rfl
    exact ⟨all, one, h1, h2, h3.mpr (Or.inr (by decide))⟩
  · obtain ⟨all, one, h1, h2, h3⟩ :=
      retry_condition_iff (retryNode [502, 503]) _ { Codes := [502, 503] } 500 rfl rfl
    refine ⟨all, one, h1, h2, ?_⟩
    cases hb : (all || one) with
    | false => rfl
    | true => exact absurd (h3.mp hb) (by decide)
  · obtain ⟨all, one, h1, h2, h3⟩ :=
      retry_condition_iff (retryNode []) _ { Codes := [] } 500 rfl rfl
    exact ⟨all, one, h1, h2, h3.mpr (Or.inl rfl)⟩

/-- C12: whatever a descriptor holds, after `reset` each of its sixteen fields
is the field of the empty descriptor; so the result does not depend on what
the descriptor held before, and `reset` is idempotent. -/
theorem reset_empties (dn other : dispathNode) :
    (dn.reset.rd = emptyDispathNode.rd ∧ dn.reset.ctx = emptyDispathNode.ctx ∧
      dn.reset.multiCtx = emptyDispathNode.multiCtx ∧
      dn.reset.exprCtx = emptyDispathNode.exprCtx ∧ dn.reset.wg = emptyDispathNode.wg ∧
      dn.reset.requestTag = emptyDispathNode.requestTag ∧
      dn.reset.idx = emptyDispathNode.idx ∧ dn.reset.api = emptyDispathNode.api ∧
      dn.reset.node = emptyDispathNode.node ∧ dn.reset.dest = emptyDispathNode.dest ∧
      dn.reset.copyTo = emptyDispathNode.copyTo ∧ dn.reset.res = emptyDispathNode.res ∧
      dn.reset.cachedBody = emptyDispathNode.cachedBody ∧
      dn.reset.cachedCT = emptyDispathNode.cachedCT ∧
      dn.reset.err = emptyDispathNode.err ∧ dn.reset.code = emptyDispathNode.code) ∧
    dn.reset = emptyDispathNode ∧
    dn.reset = other.reset ∧
    dn.reset.reset = dn.reset :=
  ⟨⟨rfl, rfl, rfl, rfl, rfl, rfl, rfl, rfl, rfl, rfl, rfl, rfl, rfl, rfl, rfl, rfl⟩,
    rfl, rfl, rfl⟩

/-- C13: a rule that is not up never changes a plan: for every set of rules,
request and descriptor, `adjustByRouting` gives the same descriptor, `dest`
and `copyTo` included, and the same clusters as on the dispatcher from which
the rules that are not up have been removed, whether those rules match the
request or not. -/
theorem adjustByRouting_ignores_disabled (r : dispatcher) (apiID : Nat) (req : Request)
    (dn : dispathNode) (requestTag : String) :
    (r.adjustByRouting apiID req dn requestTag).1 =
      (({ r with routings := r.routings.filter (fun x => x.isUp) } :
        dispatcher).adjustByRouting apiID req dn requestTag).1 ∧
    (r.adjustByRouting apiID req dn requestTag).2.clusters =
      (({ r with routings := r.routings.filter (fun x => x.isUp) } :
        dispatcher).adjustByRouting apiID req dn requestTag).2.clusters := by
  unfold dispatcher.adjustByRouting
  have h := adjustLoop_congr r
    ({ r with routings := r.routings.filter (fun x => x.isUp) } : dispatcher)
    apiID req requestTag dn (r.routings.filter (fun x => x.isUp)) rfl rfl
  rw [adjustLoop_filter_isUp r apiID req requestTag dn r.routings] at h
  exact h

/-- C13 on the sample gateway: a split rule that is down and matches API 7
leaves the descriptor without destination, as the gateway without rule does. -/
theorem adjustByRouting_ignores_disabled_witness :
    ((sampleDispatcher sampleAPI
        [sampleRule 1 RoutingStrategy.Split Status.Down]).adjustByRouting
        7 sampleReq emptyDispathNode "t").1 =
      ((sampleDispatcher sampleAPI []).adjustByRouting 7 sampleReq emptyDispathNode "t").1 ∧
    ((sampleRule 1 RoutingStrategy.Split Status.Down).matches_ 7 sampleReq "t") = true :=
  ⟨(adjustByRouting_ignores_disabled
      (sampleDispatcher sampleAPI [sampleRule 1 RoutingStrategy.Split Status.Down])
      7 sampleReq emptyDispathNode "t").1, rfl⟩

/-- C14 fails on the code: on a descriptor of a multi-node API (wait group and
aggregation context set, counter at 2) whose node has `UseDefault` set and
no default value configured, `getResponseBody` dereferences the nil default
value and `maybeDone` does not return: no entry is written and the completion
is not signalled. On the same descriptor with a default value configured
`maybeDone` writes the entry of the node and takes the counter to 1. -/
theorem maybeDone_use_default_without_value :
    fencedNode.wg = some 0 ∧
    fencedNode.getResponseBody = none ∧
    fencedNode.maybeDone (freshHeap 2) = none ∧
    (dispathNode.maybeDone
        { fencedNode with
          node := some { meta := { ClusterID := 10, URLRewrite := "", AttrName := "order",
                                   RetryStrategy := none,
                                   DefaultValue := some { Body := "default" },
                                   UseDefault := true } } }
        (freshHeap 2)).bind (fun h => h.multiCtxs 0) =
      some { data := [("order", "default")] } ∧
    (dispathNode.maybeDone
        { fencedNode with
          node := some { meta := { ClusterID := 10, URLRewrite := "", AttrName := "order",
                                   RetryStrategy := none,
                                   DefaultValue := some { Body := "default" },
                                   UseDefault := true } } }
        (freshHeap 2)).bind (fun h => h.wgs 0) = some 1 :=
  ⟨rfl, rfl, rfl, rfl, rfl⟩

/-- C15: `hasError` is true exactly when `err` is set or `code` is at least
400; a descriptor without `err` is not in error at the status 200 or 399 and
is in error at the status 400, and a descriptor just reset is not in error. -/
theorem hasError_iff (dn : dispathNode) :
    (dn.hasError = true ↔ (dn.err.isSome = true ∨ dn.code ≥ 400)) ∧
    dispathNode.hasError { dn with err := none, code := 200 } = false ∧
    dispathNode.hasError { dn with err := none, code := 399 } = false ∧
    dispathNode.hasError { dn with err := none, code := 400 } = true ∧
    dn.reset.hasError = false := by
  refine ⟨?_, ?_, ?_, ?_, ?_⟩
  · unfold dispathNode.hasError StatusBadRequest
    rw [Bool.or_eq_true, decide_eq_true_eq]
  · simp [dispathNode.hasError, StatusBadRequest]
  · simp [dispathNode.hasError, StatusBadRequest]
  · simp [dispathNode.hasError, StatusBadRequest]
  · simp [dispathNode.hasError, StatusBadRequest, dispathNode.reset, emptyDispathNode]

/-- C16, as stated, fails. The host does not become the address of the copy
destination as it is written: `SetHost` stores it in lower case. The request
is not changed whenever the two guards hold: a rewrite that evaluates to the
URI the request already has, towards the host it already has, leaves it as it
is. And on a copy without copy destination, with both guards holding,
`prepare` does not return. -/
theorem prepare_not_verbatim :
    ((copyReq.prepare sampleExec sampleParser
        { sampleCopy "/v2/orders/" with to_ := some capitalServer }).bind
        (fun req => req.origin)).map (fun origin => origin.host) = some "backend.local:80" ∧
      "backend.local:80" ≠ capitalServer.meta.Addr ∧
    copyReq.prepare sampleExec sampleParser
        { sampleCopy "/orders/" with
          origin := some { path := "/orders/42", requestURI := "/orders/42",
                           host := "10.0.0.3:80" } } =
      some { sampleCopy "/orders/" with
          origin := some { path := "/orders/42", requestURI := "/orders/42",
                           host := "10.0.0.3:80" } } ∧
    copyReq.prepare sampleExec sampleParser { sampleCopy "/v2/orders/" with to_ := none } =
      none := by
  refine ⟨rfl, ?_, rfl, rfl⟩
  decide

/-- C16, amended: on a copy with a node, `prepare` changes the request of the
copy only if the node has a rewrite expression that is not empty and the
evaluation of it gives a string that is not empty. In that case, on a copy
that has a request and a copy destination, the request URI becomes that string
in the re-encoded form `fasthttp` gives it, the path is parsed from it, the
host becomes the address of the copy destination in lower case, and nothing
else of the copy changes. In every other case `prepare` returns the copy as it
is. -/
theorem prepare_effect (Exec : exprCtx → apiNode → String) (parser : URIParser)
    (req : copyReq) (node : apiNode) (hn : req.node = some node) :
    (node.meta.URLRewrite ≠ "" ∧ Exec { Origin := req.origin, Params := req.params } node ≠ "" →
      ∀ origin dest, req.origin = some origin → req.to_ = some dest →
        req.prepare Exec parser =
          some { req with
            origin := some
              { path :=
                  parser.Path (Exec { Origin := req.origin, Params := req.params } node),
                requestURI :=
                  parser.RequestURI (Exec { Origin := req.origin, Params := req.params } node),
                host := lowercaseBytes dest.meta.Addr } }) ∧
    (¬ (node.meta.URLRewrite ≠ "" ∧
        Exec { Origin := req.origin, Params := req.params } node ≠ "") →
      req.prepare Exec parser = some req) ∧
    (∀ req1, req.prepare Exec parser = some req1 → req1.origin ≠ req.origin →
      node.meta.URLRewrite ≠ "" ∧
        Exec { Origin := req.origin, Params := req.params } node ≠ "") := by
  cases req with
  | mk o a nd t ps i tg =>
    simp only at hn
    subst hn
    have hneg : ¬ (node.meta.URLRewrite ≠ "" ∧
        Exec { Origin := o, Params := ps } node ≠ "") →
        copyReq.prepare Exec parser
          { origin := o, api := a, node := some node, to_ := t, params := ps, idx := i,
            requestTag := tg } =
          some { origin := o, api := a, node := some node, to_ := t, params := ps, idx := i,
                 requestTag := tg } := by
      intro hc
      by_cases h1 : node.meta.URLRewrite ≠ ""
      · have hd : decide (node.meta.URLRewrite ≠ "") = true := decide_eq_true h1
        have h2 : ¬ Exec { Origin := o, Params := ps } node ≠ "" := fun h => hc ⟨h1, h⟩
        simp only [copyReq.prepare, copyReq.needRewrite, copyReq.rewiteURL, hd]
        rw [if_neg h2]
      · have hd : decide (node.meta.URLRewrite ≠ "") = false := decide_eq_false h1
        simp only [copyReq.prepare, copyReq.needRewrite, hd]
    refine ⟨?_, hneg, ?_⟩
    · intro hc origin dest ho ht
      simp only at ho ht
      subst ho ht
      have hd : decide (node.meta.URLRewrite ≠ "") = true := decide_eq_true hc.1
      simp only [copyReq.prepare, copyReq.needRewrite, copyReq.rewiteURL, hd]
      rw [if_pos hc.2]
      rfl
    · intro req1 hp hne
      by_contra hc
      rw [hneg hc] at hp
      simp only [Option.some.injEq] at hp
      exact hne (by rw [← hp])

/-- C16, amended, on the sample copy: with the rewrite expression
`/v2/orders/` and the backend `Backend.Local:80` the request goes to
`/v2/orders/42` on the host `backend.local:80`; without rewrite expression,
and with one that evaluates to the empty string, the copy is left as it is. -/
theorem prepare_effect_witness :
    copyReq.prepare sampleExec sampleParser
        { sampleCopy "/v2/orders/" with to_ := some capitalServer } =
      some { sampleCopy "/v2/orders/" with
        to_ := some capitalServer,
        origin := some { path := "/v2/orders/42", requestURI := "/v2/orders/42",
                         host := "backend.local:80" } } ∧
    (sampleCopy "").prepare sampleExec sampleParser = some (sampleCopy "") ∧
    (sampleCopy "/v2").prepare (fun _ _ => "") sampleParser = some (sampleCopy "/v2") :=
  ⟨(prepare_effect sampleExec sampleParser
      { sampleCopy "/v2/orders/" with to_ := some capitalServer } _ rfl).1
      ⟨by decide, by decide⟩ sampleReq capitalServer rfl rfl,
   (prepare_effect sampleExec sampleParser (sampleCopy "") _ rfl).2.1
      (fun h => h.1 rfl),
   (prepare_effect (fun _ _ => "") sampleParser (sampleCopy "/v2") _ rfl).2.1
      (fun h => h.2 rfl)⟩

/-- C17 fails on the code: on a descriptor without cached body whose node has
`UseDefault` set and no default value configured, `getResponseBody`
dereferences the nil default value, with or without a response at hand; the
error branch of the same condition is guarded by `hasDefaultValue` and returns
the body of the response. -/
theorem getResponseBody_use_default_without_value :
    dispathNode.getResponseBody
        { emptyDispathNode with
          node := some { meta := { ClusterID := 10, URLRewrite := "", AttrName := "order",
                                   RetryStrategy := none, DefaultValue := none,
                                   UseDefault := true } } } = none ∧
    dispathNode.getResponseBody
        { emptyDispathNode with
          code := 200,
          res := some { body := "real", contentType := "text/plain" },
          node := some { meta := { ClusterID := 10, URLRewrite := "", AttrName := "order",
                                   RetryStrategy := none, DefaultValue := none,
                                   UseDefault := true } } } = none ∧
    dispathNode.getResponseBody
        { emptyDispathNode with
          code := 502,
          res := some { body := "real", contentType := "text/plain" },
          node := some { meta := { ClusterID := 10, URLRewrite := "", AttrName := "order",
                                   RetryStrategy := none, DefaultValue := none,
                                   UseDefault := false } } } = some "real" :=
  ⟨rfl, rfl, rfl⟩

/-- C18: every destination of a plan comes from the server registry of the
dispatcher `dispatch` ran against: for every descriptor `dispatch` returns,
`dest` and `copyTo` are each nil or the entry of the servers map under an id
that the balancer of one of the clusters gives for the request; and a
selection gives the entry of the servers map under the id the cluster selects,
nil when the map has no such id. -/
theorem dispatch_destinations_from_registry (r : dispatcher) (req : Request)
    (requestTag : String) (api : Option apiRuntime) (dispathes : List dispathNode)
    (ctx : exprCtx) (r1 : dispatcher)
    (h : r.dispatch req requestTag = some ((api, dispathes, ctx), r1)) :
    (∀ dn ∈ dispathes, fromRegistry r req dn.dest ∧ fromRegistry r req dn.copyTo) ∧
    (∀ id cluster, r.clusters id = some cluster →
      (r.selectServerFromCluster req id).1 = r.servers (cluster.selectServer req).1 ∧
      (r.servers (cluster.selectServer req).1 = none →
        (r.selectServerFromCluster req id).1 = none)) := by
  constructor
  · have hb : sameBalancers r r.RLock := ⟨rfl, fun id cluster hc => ⟨cluster, hc, rfl⟩⟩
    unfold dispatcher.dispatch at h
    cases ht : r.RLock.findTargetAPI req with
    | none => rw [ht] at h; exact absurd h (by simp)
    | some t =>
      rw [ht] at h
      cases t with
      | none =>
        simp only [Option.some.injEq, Prod.mk.injEq] at h
        intro dn hdn
        rw [← h.1.2.1] at hdn
        exact absurd hdn (List.not_mem_nil _)
      | some targetAPI =>
        simp only at h
        by_cases hu : targetAPI.meta.UseDefault = true
        · rw [if_pos hu] at h
          simp only [Option.some.injEq, Prod.mk.injEq] at h
          intro dn hdn
          rw [← h.1.2.1] at hdn
          exact absurd hdn (List.not_mem_nil _)
        · rw [if_neg hu] at h
          cases hl : dispatcher.dispatchLoop req requestTag targetAPI
              (r.RLock.buildExprCtx req) r.RLock 0 targetAPI.nodes [] with
          | none => rw [hl] at h; exact absurd h (by simp)
          | some p =>
            obtain ⟨ds, r2⟩ := p
            rw [hl] at h
            simp only [Option.some.injEq, Prod.mk.injEq] at h
            rw [← h.1.2.1]
            exact dispatchLoop_registry r req requestTag targetAPI _ targetAPI.nodes
              r.RLock 0 [] ds r2 hl hb (fun d hd => absurd hd (List.not_mem_nil _))
  · intro id cluster hc
    have e : (r.selectServerFromCluster req id).1 = r.servers (cluster.selectServer req).1 := by
      unfold dispatcher.selectServerFromCluster
      rw [hc]
    exact ⟨e, fun hnone => by rw [e, hnone]⟩

/-- C18 on the sample gateway, with a copy rule towards cluster 20: the two
descriptors of API 7 have their destinations and copy destinations in the
registry. -/
theorem dispatch_destinations_from_registry_witness :
    ∃ dispathes ctx r1,
      (sampleDispatcher sampleAPI [sampleRule 1 RoutingStrategy.Copy Status.Up]).dispatch
        sampleReq "t" = some ((some sampleAPI, dispathes, ctx), r1) ∧
      dispathes.length = 2 ∧
      ∀ dn ∈ dispathes,
        fromRegistry (sampleDispatcher sampleAPI [sampleRule 1 RoutingStrategy.Copy Status.Up])
          sampleReq dn.dest ∧
        fromRegistry (sampleDispatcher sampleAPI [sampleRule 1 RoutingStrategy.Copy Status.Up])
          sampleReq dn.copyTo := by
  obtain ⟨added, r1, hl, hlen, _⟩ :=
    dispatchLoop_spec sampleReq "t" sampleAPI
      ((sampleDispatcher sampleAPI
        [sampleRule 1 RoutingStrategy.Copy Status.Up]).RLock.buildExprCtx sampleReq)
      sampleAPI.nodes
      (sampleDispatcher sampleAPI [sampleRule 1 RoutingStrategy.Copy Status.Up]).RLock 0 []
  have hd := dispatch_matched
    (sampleDispatcher sampleAPI [sampleRule 1 RoutingStrategy.Copy Status.Up])
    sampleReq "t" sampleAPI rfl rfl rfl rfl added r1 (by simpa using hl)
  exact ⟨added, _, r1, hd, hlen,
    (dispatch_destinations_from_registry _ sampleReq "t" _ added _ r1 hd).1⟩

end Proxy
